import Mathlib

/-!
Shallow embedding of the lottery data importer (`import_lottery_data.py`),
the analytics queries (`query_examples.py`) and the history matching of the
GUI (`lottery_gui.py`, `history_check`).

Strings of the Python program are modelled as `List Char` (code-point
sequences); the SQLite tables `lottery_draws` and `lottery_numbers` are
modelled as lists of records kept in rowid order, together with the next
AUTOINCREMENT id for `lottery_draws`.
-/

namespace Lottery

/-- Strings are modelled as lists of characters. -/
abbrev Str := List Char

/-- Python `str.strip()`: remove leading and trailing whitespace. -/
def pyStrip (s : Str) : Str :=
  ((s.dropWhile Char.isWhitespace).reverse.dropWhile Char.isWhitespace).reverse

/-- Numeric value of a list of decimal digit characters. -/
def digitsToNat (l : Str) : Nat :=
  l.foldl (fun a c => a * 10 + (c.toNat - '0'.toNat)) 0

/-- Continuation of a Python integer literal after its leading digit:
further digits, with a single underscore allowed only between two
digits (PEP 515 grouping). -/
def undRest : Str → Bool
  | [] => true
  | '_' :: rest =>
    match rest with
    | [] => false
    | c :: rest2 => c.isDigit && undRest rest2
  | c :: rest => c.isDigit && undRest rest

/-- The digit part of Python `int(s)`: a leading decimal digit, then
digits with single underscores between digits. -/
def pyDigits (s : Str) : Bool :=
  match s with
  | [] => false
  | c :: rest => c.isDigit && undRest rest

/-- Python `int(s)` on a string: strip whitespace, optional sign, then
decimal digits with single underscores allowed between digits
(PEP 515: `int('2_007') = 2007`); `none` models a raised `ValueError`. -/
def pyInt (s : Str) : Option Int :=
  match pyStrip s with
  | [] => none
  | '+' :: ds =>
    if pyDigits ds then some (digitsToNat (ds.filter (fun c => c ≠ '_'))) else none
  | '-' :: ds =>
    if pyDigits ds then
      some (-(digitsToNat (ds.filter (fun c => c ≠ '_')) : Int))
    else none
  | ds =>
    if pyDigits ds then some (digitsToNat (ds.filter (fun c => c ≠ '_'))) else none

/-- Python `str.split(sep)` for a one-character separator. -/
def splitOnChar (c : Char) : Str → List Str
  | [] => [[]]
  | x :: xs =>
    let r := splitOnChar c xs
    if x = c then [] :: r
    else
      match r with
      | [] => [[x]]
      | y :: ys => (x :: y) :: ys

/-- Gregorian leap-year rule used by `datetime`. -/
def isLeapYear (y : Nat) : Bool :=
  (y % 4 = 0 && y % 100 ≠ 0) || y % 400 = 0

/-- Number of days of month `m` in year `y` (0 for an invalid month). -/
def daysInMonth (y m : Nat) : Nat :=
  if m = 1 ∨ m = 3 ∨ m = 5 ∨ m = 7 ∨ m = 8 ∨ m = 10 ∨ m = 12 then 31
  else if m = 4 ∨ m = 6 ∨ m = 9 ∨ m = 11 then 30
  else if m = 2 then (if isLeapYear y then 29 else 28)
  else 0

/-- The `%d` day field of CPython's `_strptime` regex
`3[01]|[12]\d|0[1-9]|[1-9]| [1-9]`: one or two decimal digits, or a
space followed by a nonzero digit (the ANSI-C padded form).  Values
outside the calendar range are rejected by the caller, as `datetime`
rejects them. -/
def dayField (ds : Str) : Option Nat :=
  match ds with
  | [' ', c] => if '1' ≤ c ∧ c ≤ '9' then some (digitsToNat [c]) else none
  | _ =>
    if ds ≠ [] ∧ ds.length ≤ 2 ∧ ds.all Char.isDigit then some (digitsToNat ds)
    else none

/-- `datetime.strptime(s, '%Y/%m/%d')` following CPython's `_strptime`
patterns: `%Y` is exactly four digits (`\d\d\d\d`), `%m` is one or two
digits valued 1..12 (`1[0-2]|0[1-9]|[1-9]`), `%d` is `dayField`, the
year is at least `MINYEAR = 1` and the day is validated against the
calendar; `none` models a raised `ValueError`. -/
def parseYMD (s : Str) : Option (Nat × Nat × Nat) :=
  match splitOnChar '/' s with
  | [ys, ms, ds] =>
    if ys.length = 4 ∧ ys.all Char.isDigit ∧
       ms ≠ [] ∧ ms.length ≤ 2 ∧ ms.all Char.isDigit then
      match dayField ds with
      | some d =>
        let y := digitsToNat ys
        let m := digitsToNat ms
        if 1 ≤ y ∧ 1 ≤ m ∧ m ≤ 12 ∧ 1 ≤ d ∧ d ≤ daysInMonth y m then
          some (y, m, d)
        else none
      | none => none
    else none
  | _ => none

/-- Decimal digit characters of `n`, most significant first
(helper with an explicit fuel so that it reduces in the kernel). -/
def natDigitsAux : Nat → Nat → Str
  | 0, _ => []
  | f + 1, n =>
    if n < 10 then [Char.ofNat (n + '0'.toNat)]
    else natDigitsAux f (n / 10) ++ [Char.ofNat (n % 10 + '0'.toNat)]

/-- Decimal representation of a natural number. -/
def natDigits (n : Nat) : Str := natDigitsAux (n + 1) n

/-- Two-digit zero-padded decimal representation (`strftime` `%m`, `%d`). -/
def pad2 (n : Nat) : Str :=
  if n < 10 then '0' :: natDigits n else natDigits n

/-- `LotteryImporter.parse_date`: convert `YYYY/MM/DD` to ISO `YYYY-MM-DD`;
on a parse failure the original string is returned unchanged. -/
def parse_date (s : Str) : Str :=
  match parseYMD s with
  | some (y, m, d) => natDigits y ++ '-' :: (pad2 m ++ '-' :: pad2 d)
  | none => s

/-- The `number_type` column of `lottery_numbers`
(`CHECK(number_type IN ('main', 'special'))`). -/
inductive NumKind where
  | main : NumKind
  | special : NumKind
deriving DecidableEq, Repr

/-- One row of the `lottery_numbers` table. -/
structure NumberRow where
  drawId : Nat
  number : Int
  kind : NumKind
  position : Nat
deriving DecidableEq, Repr

/-- One row of the `lottery_draws` table (timestamps omitted). -/
structure Draw where
  id : Nat
  game_type : Str
  draw_number : Str
  draw_date : Str
  sales_amount : Option Int
  sales_bets : Option Int
  total_prize : Option Int
  year : Int
deriving DecidableEq, Repr

/-- The database state: both tables in rowid order, plus the next
AUTOINCREMENT id of `lottery_draws`. -/
structure DBState where
  draws : List Draw
  numbers : List NumberRow
  nextId : Nat
deriving DecidableEq, Repr

/-- One entry of `LOTTERY_CONFIG`: the number of main-number columns and
whether the game has a special-number column. -/
structure GameConfig where
  main_numbers : Nat
  has_special : Bool
deriving DecidableEq, Repr

/-- One CSV row as seen by `csv.DictReader`: the required fields, the
main-number columns `獎號1..` in order (a missing column is a `KeyError`),
and the optional special-number column (`none` when the column is absent).
An absent optional sales column is modelled by the empty string, which the
code treats identically. -/
structure CsvRow where
  period : Str
  date : Str
  sales_amount : Str
  sales_bets : Str
  total_prize : Str
  mains : List Str
  special : Option Str
deriving DecidableEq, Repr

/-- The scalar fields parsed from one CSV row together with the
number-row writes the row performs. -/
structure RowData where
  draw_number : Str
  draw_date : Str
  sales_amount : Option Int
  sales_bets : Option Int
  total_prize : Option Int
  year : Int
  writes : List (Int × NumKind × Nat)
deriving DecidableEq, Repr

/-- An optional money column: blank means NULL, otherwise `int(...)`;
outer `none` models a `ValueError` that fails the row. -/
def parseOptMoney (s : Str) : Option (Option Int) :=
  if pyStrip s = [] then some none
  else
    match pyInt s with
    | some v => some (some v)
    | none => none

/-- `int(draw_date.split('-')[0])`: the year derived from the stored date. -/
def yearOfDate (d : Str) : Option Int :=
  pyInt ((splitOnChar '-' d).headD [])

/-- The main-number insertion loop (`for i in range(1, main_numbers + 1)`),
started at column `i` with `rem` columns left: the entries inserted, and
whether the loop completed without an exception.  A missing column
(`KeyError`) or a malformed integer stops the loop, keeping the entries
already inserted. -/
def mainsLoop (mains : List Str) : Nat → Nat → List (Int × NumKind × Nat) × Bool
  | _, 0 => ([], true)
  | i, rem + 1 =>
    match mains.get? (i - 1) with
    | none => ([], false)
    | some s =>
      let t := pyStrip s
      if t = [] then mainsLoop mains (i + 1) rem
      else
        match pyInt t with
        | none => ([], false)
        | some v =>
          let r := mainsLoop mains (i + 1) rem
          ((v, NumKind.main, i) :: r.1, r.2)

/-- The special-number insert: `none` models a `ValueError` aborting the
row (after the main numbers were already inserted). -/
def specialWrite (cfg : GameConfig) (r : CsvRow) : Option (List (Int × NumKind × Nat)) :=
  if cfg.has_special then
    match r.special with
    | none => some []
    | some s =>
      if pyStrip s = [] then some []
      else
        match pyInt (pyStrip s) with
        | none => none
        | some v => some [(v, NumKind.special, 1)]
  else some []

/-- All number-table writes one CSV row performs, in order; an exception
mid-row keeps the writes already performed. -/
def rowWrites (cfg : GameConfig) (r : CsvRow) : List (Int × NumKind × Nat) :=
  let m := mainsLoop r.mains 1 cfg.main_numbers
  if m.2 then
    match specialWrite cfg r with
    | none => m.1
    | some e => m.1 ++ e
  else m.1

/-- The scalar-parsing phase of one CSV row (everything before the first
database write); `none` models an exception that skips the row before any
write happened. -/
def parseRow (cfg : GameConfig) (r : CsvRow) : Option RowData :=
  let dn := pyStrip r.period
  let dd := parse_date (pyStrip r.date)
  match yearOfDate dd, parseOptMoney r.sales_amount,
        parseOptMoney r.sales_bets, parseOptMoney r.total_prize with
  | some y, some sa, some sb, some tp =>
    some ⟨dn, dd, sa, sb, tp, y, rowWrites cfg r⟩
  | _, _, _, _ => none

/-- `SELECT id FROM lottery_draws WHERE game_type = ? AND draw_number = ?`. -/
def findDraw (db : DBState) (gt dn : Str) : Option Draw :=
  db.draws.find? (fun d => decide (d.game_type = gt ∧ d.draw_number = dn))

/-- The `UPDATE lottery_draws SET ...` of the re-import path: replaces the
scalar fields, keeps `id` and `draw_number`. -/
def updateScalars (rd : RowData) (gt : Str) (d : Draw) : Draw :=
  { d with
    game_type := gt
    draw_date := rd.draw_date
    sales_amount := rd.sales_amount
    sales_bets := rd.sales_bets
    total_prize := rd.total_prize
    year := rd.year }

/-- Tag the pending number writes with their owning draw id. -/
def tagWrites (k : Nat) (ws : List (Int × NumKind × Nat)) : List NumberRow :=
  ws.map (fun w => ⟨k, w.1, w.2.1, w.2.2⟩)

/-- Processing of one CSV row inside `LotteryImporter.import_csv`:
parse the scalars (a failure there skips the row with no write), look the
draw up by `(game_type, draw_number)`, update-and-delete or insert, then
append the row's number writes.  A mid-row exception keeps the writes
already performed (there is no per-row rollback). -/
def applyRow (cfg : GameConfig) (gt : Str) (db : DBState) (r : CsvRow) : DBState :=
  match parseRow cfg r with
  | none => db
  | some rd =>
    match findDraw db gt rd.draw_number with
    | some d =>
      { draws := db.draws.map (fun x => if x.id = d.id then updateScalars rd gt x else x)
        numbers := db.numbers.filter (fun n => decide (n.drawId ≠ d.id)) ++
                   tagWrites d.id rd.writes
        nextId := db.nextId }
    | none =>
      { draws := db.draws ++
          [{ id := db.nextId, game_type := gt, draw_number := rd.draw_number,
             draw_date := rd.draw_date, sales_amount := rd.sales_amount,
             sales_bets := rd.sales_bets, total_prize := rd.total_prize,
             year := rd.year }]
        numbers := db.numbers ++ tagWrites db.nextId rd.writes
        nextId := db.nextId + 1 }

/-- `LotteryImporter.import_csv` on the rows of one CSV file. -/
def importFile (cfg : GameConfig) (gt : Str) (db : DBState) (rows : List CsvRow) : DBState :=
  rows.foldl (applyRow cfg gt) db

/-- A sequence of `import_csv` runs (possibly over different games). -/
def importRuns (db : DBState) (runs : List (GameConfig × Str × List CsvRow)) : DBState :=
  runs.foldl (fun s t => importFile t.1 t.2.1 s t.2.2) db

/-- The natural key `(game_type, draw_number)` of a draw. -/
def drawKey (d : Draw) : Str × Str := (d.game_type, d.draw_number)

/-- Database wellformedness: natural keys are unique (the schema's
`UNIQUE(game_type, draw_number)`), ids are unique and below the next
AUTOINCREMENT id, and every number row's owner id is below it too. -/
def WF (db : DBState) : Prop :=
  (db.draws.map drawKey).Nodup ∧
  (db.draws.map Draw.id).Nodup ∧
  (∀ d ∈ db.draws, d.id < db.nextId) ∧
  (∀ n ∈ db.numbers, n.drawId < db.nextId)

instance (db : DBState) : Decidable (WF db) := by
  unfold WF; infer_instance

/-! ### Sorting

`ORDER BY` clauses and Python's `list.sort` are modelled by an insertion
sort parameterised by a boolean "goes before or equal" relation. -/

/-- Insert `x` into `l` before the first element `y` with `le x y`. -/
def insertLe (le : α → α → Bool) (x : α) : List α → List α
  | [] => [x]
  | y :: ys => if le x y then x :: y :: ys else y :: insertLe le x ys

/-- Insertion sort by the boolean relation `le`. -/
def sortLe (le : α → α → Bool) : List α → List α
  | [] => []
  | x :: xs => insertLe le x (sortLe le xs)

/-- Lexicographic `≤` on strings (code-point order, as in Python and in
SQLite's TEXT comparison). -/
def strLe : Str → Str → Bool
  | [], _ => true
  | _ :: _, [] => false
  | a :: as, b :: bs => if a < b then true else if b < a then false else strLe as bs

/-! ### Query layer (`query_examples.py`) -/

/-- The `d.year >= ?` filter: appended only when `year_start` is truthy,
so `None` and `0` both leave the lower bound off. -/
def yearLowOk (ys : Option Int) (y : Int) : Bool :=
  match ys with
  | none => true
  | some b => if b = 0 then true else decide (b ≤ y)

/-- The `d.year <= ?` filter: appended only when `year_end` is truthy. -/
def yearHighOk (ye : Option Int) (y : Int) : Bool :=
  match ye with
  | none => true
  | some b => if b = 0 then true else decide (y ≤ b)

/-- The `lottery_numbers JOIN lottery_draws` of `get_number_frequency`:
one emitted value per (number row, matching draw) pair. -/
def joinedNumbers (db : DBState) (gt : Str) (nt : NumKind) (ys ye : Option Int) : List Int :=
  (db.numbers.filter (fun n => decide (n.kind = nt))).flatMap
    (fun n =>
      (db.draws.filter (fun d =>
        decide (d.id = n.drawId) && decide (d.game_type = gt) &&
        yearLowOk ys d.year && yearHighOk ye d.year)).map (fun _ => n.number))

/-- The `GROUP BY n.number` result of `get_number_frequency`, one
`(number, count)` pair per distinct value, before ordering. -/
def freqPairs (db : DBState) (gt : Str) (nt : NumKind) (ys ye : Option Int) :
    List (Int × Nat) :=
  let vals := joinedNumbers db gt nt ys ye
  vals.dedup.map (fun v => (v, vals.count v))

/-- `ORDER BY count DESC, n.number ASC` as a before-or-equal relation. -/
def freqLe (p q : Int × Nat) : Bool :=
  decide (q.2 < p.2) || (decide (p.2 = q.2) && decide (p.1 ≤ q.1))

/-- `LotteryQuery.get_number_frequency`. -/
def get_number_frequency (db : DBState) (gt : Str) (nt : NumKind)
    (ys ye : Option Int) (lim : Nat) : List (Int × Nat) :=
  (sortLe freqLe (freqPairs db gt nt ys ye)).take lim

/-- The inner `GROUP BY draw_id HAVING COUNT(DISTINCT number) = ?` of
`get_number_combination_frequency`: the draw has at least one main-number
row among the queried values (so that a group exists) and the number of
distinct such values equals the length of the queried list. -/
def comboInner (db : DBState) (nums : List Int) (did : Nat) : Bool :=
  let vs := (db.numbers.filter (fun n =>
    decide (n.drawId = did) && decide (n.kind = NumKind.main) &&
    decide (n.number ∈ nums))).map NumberRow.number
  decide (vs ≠ []) && decide (vs.dedup.length = nums.length)

/-- `LotteryQuery.get_number_combination_frequency`:
`COUNT(DISTINCT d.id)` over the matching draws. -/
def get_number_combination_frequency (db : DBState) (gt : Str) (nums : List Int)
    (ys ye : Option Int) : Nat :=
  ((db.draws.filter (fun d =>
    decide (d.game_type = gt) && comboInner db nums d.id &&
    yearLowOk ys d.year && yearHighOk ye d.year)).map Draw.id).dedup.length

/-- `ORDER BY draw_date DESC, draw_number DESC` as a before-or-equal
relation on draws. -/
def recentLe (a b : Draw) : Bool :=
  if a.draw_date = b.draw_date then strLe b.draw_number a.draw_number
  else strLe b.draw_date a.draw_date

/-- The `recent_draws` CTE of `get_cold_hot_numbers`: ids of the most
recent `recent` draws of the game. -/
def recentIds (db : DBState) (gt : Str) (recent : Nat) : List Nat :=
  ((sortLe recentLe (db.draws.filter (fun d => decide (d.game_type = gt)))).take
    recent).map Draw.id

/-- The ranked `(number, count)` list of `get_cold_hot_numbers`
(`ORDER BY count DESC, number ASC`, no limit). -/
def rankedWindow (db : DBState) (gt : Str) (recent : Nat) : List (Int × Nat) :=
  let ids := recentIds db gt recent
  let vals := (db.numbers.filter (fun n =>
    decide (n.drawId ∈ ids) && decide (n.kind = NumKind.main))).map NumberRow.number
  sortLe freqLe (vals.dedup.map (fun v => (v, vals.count v)))

/-- `LotteryQuery.get_cold_hot_numbers`: hot = first 10 of the ranked
list, cold = the Python slice `results[-10:]`. -/
def get_cold_hot_numbers (db : DBState) (gt : Str) (recent : Nat) :
    List (Int × Nat) × List (Int × Nat) :=
  let ranked := rankedWindow db gt recent
  (ranked.take 10, ranked.drop (ranked.length - 10))

/-! ### History matching (`lottery_gui.py`, `history_check`) -/

/-- The game the GUI is hard-wired to (大樂透). -/
def bigLotto : Str := "大樂透".toList

/-- The main numbers stored for a draw id, in rowid order. -/
def drawMains (db : DBState) (did : Nat) : List Int :=
  (db.numbers.filter (fun n =>
    decide (n.drawId = did) && decide (n.kind = NumKind.main))).map NumberRow.number

/-- `ORDER BY d.draw_date DESC` as a before-or-equal relation. -/
def dateDescLe (a b : Draw) : Bool := strLe b.draw_date a.draw_date

/-- The `GROUP BY d.id` query of `history_check`: one
`(draw_number, draw_date, main numbers)` triple per 大樂透 draw that has at
least one main-number row, most recent date first. -/
def historyRows (db : DBState) : List (Str × Str × List Int) :=
  (sortLe dateDescLe (db.draws.filter (fun d =>
    decide (d.game_type = bigLotto) && decide (drawMains db d.id ≠ [])))).map
    (fun d => (d.draw_number, d.draw_date, drawMains db d.id))

/-- `set(current) & set(draw_numbers)`: the distinct candidate values that
occur among the draw's main numbers. -/
def setInter (cand mains : List Int) : List Int :=
  cand.dedup.filter (fun x => decide (x ∈ mains))

/-- Ascending `≤` on integers for Python's `sorted`. -/
def intLe (a b : Int) : Bool := decide (a ≤ b)

/-- One listed record of the history check. -/
structure MatchRecord where
  draw_number : Str
  draw_date : Str
  match_count : Nat
  matched : List Int
deriving DecidableEq, Repr

/-- The loop state of `history_check`: the 2..6 match-size buckets, the
maximum match size seen, and the records collected so far. -/
structure HistAcc where
  b2 : Nat
  b3 : Nat
  b4 : Nat
  b5 : Nat
  b6 : Nat
  max_match : Nat
  records : List MatchRecord
deriving DecidableEq, Repr

/-- `matches_count[match_count] += 1` (a no-op outside the keys 2..6). -/
def bumpBucket (acc : HistAcc) (c : Nat) : HistAcc :=
  if c = 2 then { acc with b2 := acc.b2 + 1 }
  else if c = 3 then { acc with b3 := acc.b3 + 1 }
  else if c = 4 then { acc with b4 := acc.b4 + 1 }
  else if c = 5 then { acc with b5 := acc.b5 + 1 }
  else if c = 6 then { acc with b6 := acc.b6 + 1 }
  else acc

/-- The body of the per-draw loop of `history_check`. -/
def histStep (cand : List Int) (acc : HistAcc) (row : Str × Str × List Int) : HistAcc :=
  let m := setInter cand row.2.2
  let c := m.length
  let acc1 := if acc.max_match < c then { acc with max_match := c } else acc
  if 2 ≤ c then
    let acc2 := bumpBucket acc1 c
    { acc2 with
      records := acc2.records ++
        [⟨row.1, row.2.1, c, sortLe intLe m⟩] }
  else acc1

/-- `match_records.sort(key=(match_count, draw_date), reverse=True)` as a
before-or-equal relation. -/
def recLe (a b : MatchRecord) : Bool :=
  decide (b.match_count < a.match_count) ||
  (decide (a.match_count = b.match_count) && strLe b.draw_date a.draw_date)

/-- The outcome of `history_check`. -/
structure HistResult where
  total_draws : Nat
  b2 : Nat
  b3 : Nat
  b4 : Nat
  b5 : Nat
  b6 : Nat
  max_match : Nat
  records : List MatchRecord
deriving DecidableEq, Repr

/-- `LotteryGUI.history_check` for a chosen candidate list. -/
def history_check (db : DBState) (cand : List Int) : HistResult :=
  let rows := historyRows db
  let acc := rows.foldl (histStep cand) ⟨0, 0, 0, 0, 0, 0, []⟩
  { total_draws := rows.length
    b2 := acc.b2, b3 := acc.b3, b4 := acc.b4, b5 := acc.b5, b6 := acc.b6
    max_match := acc.max_match
    records := sortLe recLe acc.records }

/-- The intersection size `history_check` computes for one history row. -/
def rowCnt (cand : List Int) (row : Str × Str × List Int) : Nat :=
  (setInter cand row.2.2).length

/-- The listed record `history_check` builds for one history row. -/
def mkRecord (cand : List Int) (row : Str × Str × List Int) : MatchRecord :=
  ⟨row.1, row.2.1, rowCnt cand row, sortLe intLe (setInter cand row.2.2)⟩

/-- A draw of the given key is present with the row's numbers attached:
the invariant established for every parsed row of an imported file. -/
def DrawFact (s : DBState) (gt : Str) (rd : RowData) : Prop :=
  ∃ d, findDraw s gt rd.draw_number = some d ∧
    s.numbers.filter (fun n => decide (n.drawId = d.id)) = tagWrites d.id rd.writes ∧
    updateScalars rd gt d = d

/-! ### Fixed example data used by witnesses and counterexamples -/

/-- `LOTTERY_CONFIG['大樂透']`. -/
def cfgBig : GameConfig := ⟨6, true⟩

/-- `LOTTERY_CONFIG['今彩539']`. -/
def cfg539 : GameConfig := ⟨5, false⟩

/-- The empty database (ids start at 1, as SQLite AUTOINCREMENT does). -/
def emptyDB : DBState := ⟨[], [], 1⟩

/-- A wellformed CSV row of 大樂透 with main numbers 1,2,3,7,8,9. -/
def row1 : CsvRow :=
  { period := "094001".toList, date := "2007/01/02".toList
    sales_amount := "100".toList, sales_bets := [], total_prize := "50".toList
    mains := ["1".toList, "2".toList, "3".toList, "7".toList, "8".toList, "9".toList]
    special := some "10".toList }

/-- `row1` with a changed sales amount. -/
def row1b : CsvRow := { row1 with sales_amount := "999".toList }

/-- A row whose second main-number column holds the non-numeric `x`:
its processing raises after the first main number was inserted. -/
def badRow : CsvRow :=
  { period := "094002".toList, date := "2007/01/03".toList
    sales_amount := [], sales_bets := [], total_prize := []
    mains := ["1".toList, "x".toList, "3".toList, "4".toList, "5".toList, "6".toList]
    special := some "10".toList }

/-- A row whose draw-date field is the unparsable string `x`. -/
def badDateRow : CsvRow :=
  { period := "094003".toList, date := "x".toList
    sales_amount := [], sales_bets := [], total_prize := []
    mains := ["1".toList, "2".toList, "3".toList, "4".toList, "5".toList, "6".toList]
    special := some "10".toList }

/-- The one-draw database obtained by importing `row1` into the empty one. -/
def db1 : DBState := applyRow cfgBig bigLotto emptyDB row1

/-- The new draw inserted for a parsed row. -/
def mkDraw (nid : Nat) (gt : Str) (rd : RowData) : Draw :=
  { id := nid, game_type := gt, draw_number := rd.draw_number,
    draw_date := rd.draw_date, sales_amount := rd.sales_amount,
    sales_bets := rd.sales_bets, total_prize := rd.total_prize, year := rd.year }

/-- The parsed row data of `row1b` (sales amount 999). -/
def rdRow1b : RowData :=
  { draw_number := "094001".toList, draw_date := "2007-01-02".toList
    sales_amount := some 999, sales_bets := none, total_prize := some 50
    year := 2007
    writes := [(1, NumKind.main, 1), (2, NumKind.main, 2), (3, NumKind.main, 3),
               (7, NumKind.main, 4), (8, NumKind.main, 5), (9, NumKind.main, 6),
               (10, NumKind.special, 1)] }

/-- The draw stored in `db1`. -/
def d1draw : Draw :=
  { id := 1, game_type := bigLotto, draw_number := "094001".toList
    draw_date := "2007-01-02".toList, sales_amount := some 100
    sales_bets := none, total_prize := some 50, year := 2007 }

/-- Two database states with the same draws table, the same next id, the
same per-draw number rows, and the same numbers table up to row order. -/
def SameStore (s s1 : DBState) : Prop :=
  s.draws = s1.draws ∧ s.nextId = s1.nextId ∧
  (∀ k : Nat, s.numbers.filter (fun n => decide (n.drawId = k)) =
    s1.numbers.filter (fun n => decide (n.drawId = k))) ∧
  s.numbers.Perm s1.numbers

/-- The 今彩539 game label. -/
def small539 : Str := "今彩539".toList

/-! ### Generic lemmas about the insertion sort -/

theorem insertLe_perm (le : α → α → Bool) (x : α) (l : List α) :
    (insertLe le x l).Perm (x :: l) := by
  induction l with
  | nil => simp [insertLe]
  | cons y ys ih =>
    simp only [insertLe]
    by_cases h : le x y = true
    · simp [h]
    · simp only [h]
      exact ((ih.cons y).trans (List.Perm.swap x y ys)).symm.symm

theorem sortLe_perm (le : α → α → Bool) (l : List α) : (sortLe le l).Perm l := by
  induction l with
  | nil => simp [sortLe]
  | cons x xs ih =>
    exact (insertLe_perm le x (sortLe le xs)).trans (ih.cons x)

theorem mem_sortLe (le : α → α → Bool) (l : List α) (a : α) :
    a ∈ sortLe le l ↔ a ∈ l :=
  (sortLe_perm le l).mem_iff

theorem insertLe_pairwise (le : α → α → Bool)
    (htot : ∀ a b, le a b = true ∨ le b a = true)
    (htr : ∀ a b c, le a b = true → le b c = true → le a c = true)
    (x : α) (l : List α)
    (hl : l.Pairwise (fun a b => le a b = true)) :
    (insertLe le x l).Pairwise (fun a b => le a b = true) := by
  induction l with
  | nil => simp [insertLe]
  | cons y ys ih =>
    rcases hl with _ | ⟨hy, hys⟩
    simp only [insertLe]
    by_cases h : le x y = true
    · simp only [h, if_true]
      refine List.Pairwise.cons ?_ (List.Pairwise.cons hy hys)
      intro b hb
      rcases List.mem_cons.mp hb with rfl | hb
      · exact h
      · exact htr x y b h (hy b hb)
    · simp only [h, if_false]
      refine List.Pairwise.cons ?_ (ih hys)
      intro b hb
      have hb' : b ∈ x :: ys := (insertLe_perm le x ys).mem_iff.mp hb
      rcases List.mem_cons.mp hb' with rfl | hb'
      · rcases htot b y with hxy | hyx
        · exact absurd hxy h
        · exact hyx
      · exact hy b hb'

theorem sortLe_pairwise (le : α → α → Bool)
    (htot : ∀ a b, le a b = true ∨ le b a = true)
    (htr : ∀ a b c, le a b = true → le b c = true → le a c = true)
    (l : List α) :
    (sortLe le l).Pairwise (fun a b => le a b = true) := by
  induction l with
  | nil => simp [sortLe]
  | cons x xs ih => exact insertLe_pairwise le htot htr x (sortLe le xs) ih

/-! ### The ordering relations are total and transitive -/

theorem strLe_total (a b : Str) : strLe a b = true ∨ strLe b a = true := by
  induction a generalizing b with
  | nil => left; simp [strLe]
  | cons x xs ih =>
    cases b with
    | nil => right; simp [strLe]
    | cons y ys =>
      simp only [strLe]
      rcases lt_trichotomy x y with h | h | h
      · left; simp [h]
      · subst h
        simp only [lt_irrefl, if_false]
        exact ih ys
      · right; simp [h]

theorem strLe_trans (a b c : Str) :
    strLe a b = true → strLe b c = true → strLe a c = true := by
  induction a generalizing b c with
  | nil => intro _ _; simp [strLe]
  | cons x xs ih =>
    intro hab hbc
    cases b with
    | nil => simp [strLe] at hab
    | cons y ys =>
      cases c with
      | nil => simp [strLe] at hbc
      | cons z zs =>
        simp only [strLe] at hab hbc ⊢
        rcases lt_trichotomy x y with hxy | hxy | hxy
        · rcases lt_trichotomy y z with hyz | hyz | hyz
          · simp [lt_trans hxy hyz]
          · subst hyz; simp [hxy]
          · exfalso
            simp [asymm hyz, hyz] at hbc
        · subst hxy
          rcases lt_trichotomy x z with hxz | hxz | hxz
          · simp [hxz]
          · subst hxz
            simp only [lt_irrefl, if_false] at hab hbc ⊢
            exact ih ys zs hab hbc
          · exfalso
            simp [asymm hxz, hxz] at hbc
        · simp [hxy, asymm hxy] at hab

theorem freqLe_total (p q : Int × Nat) : freqLe p q = true ∨ freqLe q p = true := by
  simp only [freqLe, Bool.or_eq_true, Bool.and_eq_true, decide_eq_true_eq]
  rcases lt_trichotomy p.2 q.2 with h | h | h
  · right; left; exact h
  · rcases le_total p.1 q.1 with h1 | h1
    · left; right; exact ⟨h, h1⟩
    · right; right; exact ⟨h.symm, h1⟩
  · left; left; exact h

theorem freqLe_trans (p q r : Int × Nat) :
    freqLe p q = true → freqLe q r = true → freqLe p r = true := by
  simp only [freqLe, Bool.or_eq_true, Bool.and_eq_true, decide_eq_true_eq]
  rintro (h1 | ⟨h1, h1'⟩) (h2 | ⟨h2, h2'⟩)
  · left; exact lt_trans h2 h1
  · left; omega
  · left; omega
  · right; exact ⟨h1.trans h2, h1'.trans h2'⟩

theorem recLe_total (a b : MatchRecord) : recLe a b = true ∨ recLe b a = true := by
  simp only [recLe, Bool.or_eq_true, Bool.and_eq_true, decide_eq_true_eq]
  rcases lt_trichotomy a.match_count b.match_count with h | h | h
  · right; left; exact h
  · rcases strLe_total b.draw_date a.draw_date with h1 | h1
    · left; right; exact ⟨h, h1⟩
    · right; right; exact ⟨h.symm, h1⟩
  · left; left; exact h

theorem recLe_trans (a b c : MatchRecord) :
    recLe a b = true → recLe b c = true → recLe a c = true := by
  simp only [recLe, Bool.or_eq_true, Bool.and_eq_true, decide_eq_true_eq]
  rintro (h1 | ⟨h1, h1'⟩) (h2 | ⟨h2, h2'⟩)
  · left; omega
  · left; omega
  · left; omega
  · right; exact ⟨h1.trans h2, strLe_trans _ _ _ h2' h1'⟩

theorem dateDescLe_total (a b : Draw) : dateDescLe a b = true ∨ dateDescLe b a = true := by
  simp only [dateDescLe]
  rcases strLe_total a.draw_date b.draw_date with h | h
  · right; exact h
  · left; exact h

theorem dateDescLe_trans (a b c : Draw) :
    dateDescLe a b = true → dateDescLe b c = true → dateDescLe a c = true := by
  simp only [dateDescLe]
  intro h1 h2
  exact strLe_trans _ _ _ h2 h1

theorem strLe_refl (a : Str) : strLe a a = true := by
  induction a with
  | nil => simp [strLe]
  | cons x xs ih => simp [strLe, ih]

theorem strLe_antisymm (a b : Str) :
    strLe a b = true → strLe b a = true → a = b := by
  induction a generalizing b with
  | nil =>
    intro _ hba
    cases b with
    | nil => rfl
    | cons y ys => simp [strLe] at hba
  | cons x xs ih =>
    intro hab hba
    cases b with
    | nil => simp [strLe] at hab
    | cons y ys =>
      simp only [strLe] at hab hba
      rcases lt_trichotomy x y with h | h | h
      · simp [h, asymm h] at hba
      · subst h
        simp only [lt_irrefl, if_false] at hab hba
        rw [ih ys hab hba]
      · simp [h, asymm h] at hab

theorem recentLe_total (a b : Draw) : recentLe a b = true ∨ recentLe b a = true := by
  simp only [recentLe]
  by_cases h : a.draw_date = b.draw_date
  · simp only [h, if_true, eq_comm (a := b.draw_date)]
    exact (strLe_total b.draw_number a.draw_number).imp id id
  · simp only [h, if_false, Ne.symm h, ite_false]
    exact (strLe_total b.draw_date a.draw_date).imp id id

/-! ### Ranked frequency lists: strict ordering and correct counts -/

theorem rank_map_fst (vals : List Int) :
    ((vals.dedup.map (fun v => (v, vals.count v))).map Prod.fst) = vals.dedup := by
  rw [List.map_map]
  have h : (Prod.fst ∘ fun v : Int => (v, vals.count v)) = id := rfl
  rw [h, List.map_id]

theorem sorted_rank_nodup_fst (vals : List Int) :
    ((sortLe freqLe (vals.dedup.map (fun v => (v, vals.count v)))).map Prod.fst).Nodup := by
  have hperm := (sortLe_perm freqLe (vals.dedup.map (fun v => (v, vals.count v)))).map Prod.fst
  rw [hperm.nodup_iff, rank_map_fst]
  exact vals.nodup_dedup

theorem sorted_rank_pairwise (vals : List Int) :
    (sortLe freqLe (vals.dedup.map (fun v => (v, vals.count v)))).Pairwise
      (fun p q => q.2 < p.2 ∨ (p.2 = q.2 ∧ p.1 < q.1)) := by
  have hle := sortLe_pairwise freqLe freqLe_total freqLe_trans
    (vals.dedup.map (fun v => (v, vals.count v)))
  have hne : (sortLe freqLe (vals.dedup.map (fun v => (v, vals.count v)))).Pairwise
      (fun p q => p.1 ≠ q.1) := by
    have h := sorted_rank_nodup_fst vals
    exact List.pairwise_map.mp h
  refine (hle.and hne).imp ?_
  rintro p q ⟨h1, h2⟩
  simp only [freqLe, Bool.or_eq_true, Bool.and_eq_true, decide_eq_true_eq] at h1
  rcases h1 with h1 | ⟨h1, h1'⟩
  · left; exact h1
  · right; exact ⟨h1, lt_of_le_of_ne h1' h2⟩

theorem mem_sorted_rank (vals : List Int) (p : Int × Nat)
    (hp : p ∈ sortLe freqLe (vals.dedup.map (fun v => (v, vals.count v)))) :
    p.2 = vals.count p.1 ∧ p.1 ∈ vals.dedup := by
  have hmem := (sortLe_perm freqLe (vals.dedup.map (fun v => (v, vals.count v)))).mem_iff.mp hp
  rcases List.mem_map.mp hmem with ⟨v, hv, rfl⟩
  exact ⟨rfl, hv⟩

/-! ### Counting through the numbers-draws join -/

theorem count_map_const (l : List α) (c v : Int) :
    ((l.map (fun _ => c)).count v) = if v = c then l.length else 0 := by
  induction l with
  | nil => simp
  | cons x xs ih =>
    simp only [List.map_cons, List.count_cons, ih]
    by_cases h : v = c
    · simp [h]
    · simp [h, Ne.symm h]

theorem filter_unique_id_length (draws : List Draw) (p : Draw → Bool) (k : Nat)
    (hids : (draws.map Draw.id).Nodup) (hp : ∀ d, p d = true → d.id = k) :
    (draws.filter p).length = if draws.any p then 1 else 0 := by
  induction draws with
  | nil => simp
  | cons d tl ih =>
    simp only [List.map_cons, List.nodup_cons] at hids
    cases h : p d with
    | true =>
      have htl : tl.filter p = [] := by
        rw [List.filter_eq_nil_iff]
        intro a ha hpa
        apply hids.1
        rw [show d.id = a.id from (hp d h).trans (hp a hpa).symm]
        exact List.mem_map_of_mem Draw.id ha
      simp [List.filter_cons, h, htl, List.any_cons]
    | false =>
      rw [List.filter_cons, List.any_cons, h]
      simp only [Bool.false_eq_true, if_false, Bool.false_or]
      exact ih hids.2

theorem count_join_aux (draws : List Draw) (ns : List NumberRow)
    (kindp : NumberRow → Bool) (q : NumberRow → Draw → Bool) (v : Int)
    (hids : (draws.map Draw.id).Nodup)
    (hq : ∀ n d, q n d = true → d.id = n.drawId) :
    (((ns.filter kindp).flatMap
        (fun n => (draws.filter (q n)).map (fun _ => n.number))).count v) =
    (ns.filter (fun n => kindp n && decide (n.number = v) && draws.any (q n))).length := by
  induction ns with
  | nil => simp
  | cons n tl ih =>
    cases hk : kindp n with
    | true =>
      rw [List.filter_cons, List.filter_cons, hk]
      simp only [Bool.true_and, if_true, List.flatMap_cons, List.count_append, ih]
      have hlen : (draws.filter (q n)).length = if draws.any (q n) then 1 else 0 :=
        filter_unique_id_length draws (q n) n.drawId hids (hq n)
      by_cases hv : n.number = v
      · subst hv
        rw [count_map_const, if_pos rfl, hlen]
        simp only [decide_eq_true_eq]
        by_cases hany : draws.any (q n) = true
        · simp [hany, Nat.add_comm]
        · simp [hany]
      · rw [count_map_const, if_neg (Ne.symm hv)]
        simp [hv]
    | false =>
      rw [List.filter_cons, List.filter_cons, hk]
      simp only [Bool.false_and, Bool.false_eq_true, if_false]
      exact ih

/-! ### Claim C4 -/

/-- C4: for every variant, number kind, optional year range and limit,
`get_number_frequency` returns at most `limit` pairs, the occurrence
counts are monotonically non-increasing with ties broken by strictly
increasing number value, and each pair's count equals the number of
number-table rows of that value and kind whose draw matches the variant
and year filters. -/
theorem numberFrequency_spec (db : DBState) (gt : Str) (nt : NumKind)
    (ys ye : Option Int) (lim : Nat)
    (hids : (db.draws.map Draw.id).Nodup) :
    (get_number_frequency db gt nt ys ye lim).length ≤ lim ∧
    (get_number_frequency db gt nt ys ye lim).Pairwise
      (fun p q => q.2 < p.2 ∨ (p.2 = q.2 ∧ p.1 < q.1)) ∧
    ∀ p ∈ get_number_frequency db gt nt ys ye lim,
      p.2 = (db.numbers.filter (fun n =>
        decide (n.kind = nt) && decide (n.number = p.1) &&
        db.draws.any (fun d =>
          decide (d.id = n.drawId) && decide (d.game_type = gt) &&
          yearLowOk ys d.year && yearHighOk ye d.year))).length := by
  have hcount : ∀ v, (joinedNumbers db gt nt ys ye).count v =
      (db.numbers.filter (fun n =>
        decide (n.kind = nt) && decide (n.number = v) &&
        db.draws.any (fun d =>
          decide (d.id = n.drawId) && decide (d.game_type = gt) &&
          yearLowOk ys d.year && yearHighOk ye d.year))).length := by
    intro v
    apply count_join_aux
    · exact hids
    · intro n d h
      simp only [Bool.and_eq_true, decide_eq_true_eq] at h
      exact h.1.1.1
  refine ⟨?_, ?_, ?_⟩
  · exact List.length_take_le lim (sortLe freqLe (freqPairs db gt nt ys ye))
  · have h := sorted_rank_pairwise (joinedNumbers db gt nt ys ye)
    exact h.sublist (List.take_sublist lim _)
  · intro p hp
    have hp' : p ∈ sortLe freqLe ((joinedNumbers db gt nt ys ye).dedup.map
        (fun v => (v, (joinedNumbers db gt nt ys ye).count v))) :=
      List.take_subset lim _ hp
    rw [(mem_sorted_rank _ p hp').1]
    exact hcount p.1

/-- Witness for C4 at a concrete one-draw database. -/
theorem numberFrequency_spec_witness :
    (db1.draws.map Draw.id).Nodup ∧
    (get_number_frequency db1 bigLotto NumKind.main none none 10).length ≤ 10 :=
  ⟨by decide, (numberFrequency_spec db1 bigLotto NumKind.main none none 10 (by decide)).1⟩

/-! ### Claim C10 -/

theorem bool_and_shuffle (x l h : Bool) :
    ((x && l) && h) = (((x && true) && h) && l) := by
  cases x <;> cases l <;> cases h <;> rfl

/-- C10: a year bound equal to 0 behaves exactly like an omitted bound in
`get_number_frequency` and `get_number_combination_frequency` (the bounds
are tested for truthiness), while a nonzero lower (upper) bound restricts
the joined draws to those with `year >= yearStart` (`year <= yearEnd`). -/
theorem yearZero_spec (db : DBState) (gt : Str) (nt : NumKind)
    (ys ye : Option Int) (lim : Nat) (nums : List Int) :
    get_number_frequency db gt nt (some 0) ye lim =
      get_number_frequency db gt nt none ye lim ∧
    get_number_frequency db gt nt ys (some 0) lim =
      get_number_frequency db gt nt ys none lim ∧
    get_number_combination_frequency db gt nums (some 0) ye =
      get_number_combination_frequency db gt nums none ye ∧
    get_number_combination_frequency db gt nums ys (some 0) =
      get_number_combination_frequency db gt nums ys none ∧
    (∀ y : Int, y ≠ 0 → ∀ yr : Int,
      yearLowOk (some y) yr = decide (y ≤ yr) ∧
      yearHighOk (some y) yr = decide (yr ≤ y)) ∧
    (∀ y : Int, y ≠ 0 →
      joinedNumbers db gt nt (some y) ye =
        joinedNumbers ⟨db.draws.filter (fun d => decide (y ≤ d.year)),
                       db.numbers, db.nextId⟩ gt nt none ye) := by
  refine ⟨rfl, rfl, rfl, rfl, ?_, ?_⟩
  · intro y hy yr
    constructor
    · simp only [yearLowOk, if_neg hy]
    · simp only [yearHighOk, if_neg hy]
  · intro y hy
    simp only [joinedNumbers]
    apply congrArg
    funext n
    apply congrArg (List.map (fun _ => n.number))
    rw [List.filter_filter]
    apply List.filter_congr
    intro d _
    have hL : yearLowOk (some y) d.year = decide (y ≤ d.year) := by
      simp only [yearLowOk, if_neg hy]
    rw [hL]
    exact bool_and_shuffle _ _ _

/-! ### Claim C6 -/

theorem dedup_filter_length_iff (nums mains : List Int)
    (hnd : nums.Nodup) (hne : nums ≠ []) :
    (mains.filter (fun x => decide (x ∈ nums)) ≠ [] ∧
      (mains.filter (fun x => decide (x ∈ nums))).dedup.length = nums.length) ↔
    ∀ x ∈ nums, x ∈ mains := by
  set L := (mains.filter (fun x => decide (x ∈ nums))).dedup with hL
  have hmemL : ∀ x, x ∈ L ↔ x ∈ mains ∧ x ∈ nums := by
    intro x
    rw [hL, List.mem_dedup, List.mem_filter]
    simp
  constructor
  · rintro ⟨-, hlen⟩ x hx
    have hsub : L ⊆ nums := fun a ha => ((hmemL a).mp ha).2
    have hperm : L.Perm nums :=
      ((List.nodup_dedup _).subperm hsub).perm_of_length_le (le_of_eq hlen.symm)
    exact ((hmemL x).mp (hperm.mem_iff.mpr hx)).1
  · intro h
    have hmemL' : ∀ x, x ∈ L ↔ x ∈ nums := by
      intro x
      rw [hmemL]
      exact ⟨fun hx => hx.2, fun hx => ⟨h x hx, hx⟩⟩
    have hperm : L.Perm nums := by
      apply List.perm_of_nodup_nodup_toFinset_eq (List.nodup_dedup _) hnd
      ext x
      simp only [List.mem_toFinset]
      exact hmemL' x
    constructor
    · rcases List.exists_mem_of_ne_nil nums hne with ⟨x, hx⟩
      have hxL : x ∈ L := (hmemL' x).mpr hx
      intro hnil
      rw [hL, hnil] at hxL
      simp at hxL
    · exact hperm.length_eq

theorem comboInner_iff (db : DBState) (nums : List Int) (did : Nat)
    (hnd : nums.Nodup) (hne : nums ≠ []) :
    comboInner db nums did = decide (∀ x ∈ nums, x ∈ drawMains db did) := by
  have hvs : (db.numbers.filter (fun n =>
      decide (n.drawId = did) && decide (n.kind = NumKind.main) &&
      decide (n.number ∈ nums))).map NumberRow.number =
      (drawMains db did).filter (fun x => decide (x ∈ nums)) := by
    rw [drawMains, List.filter_map, List.filter_filter]
    apply congrArg
    apply List.filter_congr
    intro n _
    exact Bool.and_comm _ _
  rw [comboInner]
  simp only [hvs]
  rw [← Bool.decide_and]
  rw [decide_eq_decide]
  exact dedup_filter_length_iff nums (drawMains db did) hnd hne

/-- C6: for a non-empty list of pairwise-distinct queried numbers,
`get_number_combination_frequency` counts the distinct draws of the
variant (within the year filters) whose main-number list contains every
queried number — superset semantics, not exact set equality. -/
theorem combinationFrequency_spec (db : DBState) (gt : Str) (nums : List Int)
    (ys ye : Option Int) (hnd : nums.Nodup) (hne : nums ≠ []) :
    get_number_combination_frequency db gt nums ys ye =
    ((db.draws.filter (fun d =>
      decide (d.game_type = gt) &&
      decide (∀ x ∈ nums, x ∈ drawMains db d.id) &&
      yearLowOk ys d.year && yearHighOk ye d.year)).map Draw.id).dedup.length := by
  rw [get_number_combination_frequency]
  have hfil : db.draws.filter (fun d =>
      decide (d.game_type = gt) && comboInner db nums d.id &&
      yearLowOk ys d.year && yearHighOk ye d.year) =
      db.draws.filter (fun d =>
      decide (d.game_type = gt) &&
      decide (∀ x ∈ nums, x ∈ drawMains db d.id) &&
      yearLowOk ys d.year && yearHighOk ye d.year) := by
    apply List.filter_congr
    intro d _
    rw [comboInner_iff db nums d.id hnd hne]
  rw [hfil]

/-- Witness for C6: the query at a concrete database whose single draw has
mains `{1,2,3,7,8,9}` (a strict superset of the queried `{1,2,3}`) counts
that draw. -/
theorem combinationFrequency_spec_witness :
    ([1, 2, 3] : List Int).Nodup ∧ ([1, 2, 3] : List Int) ≠ [] ∧
    get_number_combination_frequency db1 bigLotto [1, 2, 3] none none =
      ((db1.draws.filter (fun d =>
        decide (d.game_type = bigLotto) &&
        decide (∀ x ∈ ([1, 2, 3] : List Int), x ∈ drawMains db1 d.id) &&
        yearLowOk none d.year && yearHighOk none d.year)).map Draw.id).dedup.length :=
  ⟨by decide, by decide,
    combinationFrequency_spec db1 bigLotto [1, 2, 3] none none (by decide) (by decide)⟩

/-- Witness for C10: the nonzero-bound conjunct applied at year 2007. -/
theorem yearZero_spec_witness :
    ((2007 : Int) ≠ 0) ∧ yearLowOk (some 2007) 2006 = decide ((2007 : Int) ≤ 2006) :=
  ⟨by decide,
    ((yearZero_spec emptyDB bigLotto NumKind.main none none 10 []).2.2.2.2.1
      2007 (by decide) 2006).1⟩

/-! ### Claim C7 -/

/-- C7: `get_cold_hot_numbers` returns hot = first 10 and cold = last 10
entries of the ranked list of the recent window (the whole list when it
has fewer than 10 entries, in which case hot and cold coincide), the
ranked list is ordered by count descending with ties by ascending number,
and a window at least as large as the variant's stored draw count behaves
identically to a window of exactly that count (it clamps, no error). -/
theorem coldHot_spec (db : DBState) (gt : Str) (recent : Nat) :
    (get_cold_hot_numbers db gt recent).1 = (rankedWindow db gt recent).take 10 ∧
    (get_cold_hot_numbers db gt recent).2 =
      (rankedWindow db gt recent).drop ((rankedWindow db gt recent).length - 10) ∧
    (rankedWindow db gt recent).Pairwise
      (fun p q => q.2 < p.2 ∨ (p.2 = q.2 ∧ p.1 < q.1)) ∧
    ((db.draws.filter (fun d => decide (d.game_type = gt))).length ≤ recent →
      get_cold_hot_numbers db gt recent =
        get_cold_hot_numbers db gt
          (db.draws.filter (fun d => decide (d.game_type = gt))).length) ∧
    ((rankedWindow db gt recent).length ≤ 10 →
      (get_cold_hot_numbers db gt recent).1 = (get_cold_hot_numbers db gt recent).2) := by
  refine ⟨rfl, rfl, ?_, ?_, ?_⟩
  · exact sorted_rank_pairwise _
  · intro hle
    have hids : recentIds db gt recent =
        recentIds db gt (db.draws.filter (fun d => decide (d.game_type = gt))).length := by
      rw [recentIds, recentIds]
      have hlen : (sortLe recentLe
          (db.draws.filter (fun d => decide (d.game_type = gt)))).length =
          (db.draws.filter (fun d => decide (d.game_type = gt))).length :=
        (sortLe_perm _ _).length_eq
      rw [List.take_of_length_le (hlen ▸ hle), List.take_of_length_le hlen.le]
    rw [get_cold_hot_numbers, get_cold_hot_numbers, rankedWindow, rankedWindow, hids]
  · intro hle
    have h1 : (rankedWindow db gt recent).take 10 = rankedWindow db gt recent :=
      List.take_of_length_le hle
    have h2 : (rankedWindow db gt recent).length - 10 = 0 := by omega
    show (rankedWindow db gt recent).take 10 =
      (rankedWindow db gt recent).drop ((rankedWindow db gt recent).length - 10)
    rw [h1, h2, List.drop_zero]

/-- Witness for C7: clamping at the one-draw database with a window of
100 (larger than its single stored draw). -/
theorem coldHot_spec_witness :
    (db1.draws.filter (fun d => decide (d.game_type = bigLotto))).length ≤ 100 ∧
    get_cold_hot_numbers db1 bigLotto 100 =
      get_cold_hot_numbers db1 bigLotto
        (db1.draws.filter (fun d => decide (d.game_type = bigLotto))).length :=
  ⟨by decide, (coldHot_spec db1 bigLotto 100).2.2.2.1 (by decide)⟩

/-! ### Claim C5 -/

theorem setInter_length (cand mains : List Int) :
    (setInter cand mains).length = (cand.toFinset ∩ mains.toFinset).card := by
  have hnd : (setInter cand mains).Nodup := (cand.nodup_dedup).filter _
  rw [← List.toFinset_card_of_nodup hnd]
  congr 1
  rw [setInter, List.toFinset_filter]
  have hdd : cand.dedup.toFinset = cand.toFinset := by
    ext x
    simp [List.mem_toFinset, List.mem_dedup]
  rw [hdd, ← Finset.filter_mem_eq_inter]
  apply Finset.filter_congr
  intro x _
  simp

theorem bumpBucket_b2 (a : HistAcc) (c : Nat) :
    (bumpBucket a c).b2 = a.b2 + (if c = 2 then 1 else 0) := by
  rw [bumpBucket]; split_ifs <;> simp_all

theorem bumpBucket_b3 (a : HistAcc) (c : Nat) :
    (bumpBucket a c).b3 = a.b3 + (if c = 3 then 1 else 0) := by
  rw [bumpBucket]; split_ifs <;> simp_all

theorem bumpBucket_b4 (a : HistAcc) (c : Nat) :
    (bumpBucket a c).b4 = a.b4 + (if c = 4 then 1 else 0) := by
  rw [bumpBucket]; split_ifs <;> simp_all

theorem bumpBucket_b5 (a : HistAcc) (c : Nat) :
    (bumpBucket a c).b5 = a.b5 + (if c = 5 then 1 else 0) := by
  rw [bumpBucket]; split_ifs <;> simp_all

theorem bumpBucket_b6 (a : HistAcc) (c : Nat) :
    (bumpBucket a c).b6 = a.b6 + (if c = 6 then 1 else 0) := by
  rw [bumpBucket]; split_ifs <;> simp_all

theorem bumpBucket_max (a : HistAcc) (c : Nat) :
    (bumpBucket a c).max_match = a.max_match := by
  rw [bumpBucket]; split_ifs <;> rfl

theorem bumpBucket_records (a : HistAcc) (c : Nat) :
    (bumpBucket a c).records = a.records := by
  rw [bumpBucket]; split_ifs <;> rfl

theorem histStep_max (cand : List Int) (acc : HistAcc) (row : Str × Str × List Int) :
    (histStep cand acc row).max_match = Nat.max acc.max_match (rowCnt cand row) := by
  simp only [histStep]
  split_ifs with h1 h2 h2 <;> simp_all [bumpBucket_max, rowCnt] <;> omega

theorem histStep_records (cand : List Int) (acc : HistAcc) (row : Str × Str × List Int) :
    (histStep cand acc row).records =
      acc.records ++ (if 2 ≤ rowCnt cand row then [mkRecord cand row] else []) := by
  simp only [histStep]
  split_ifs with h1 h2 h2 <;> simp_all [bumpBucket_records, rowCnt, mkRecord] <;> omega

theorem histStep_b2 (cand : List Int) (acc : HistAcc) (row : Str × Str × List Int) :
    (histStep cand acc row).b2 = acc.b2 + (if rowCnt cand row = 2 then 1 else 0) := by
  simp only [histStep]
  split_ifs with h1 h2 h2 <;> simp_all [bumpBucket_b2, rowCnt]

theorem histStep_b3 (cand : List Int) (acc : HistAcc) (row : Str × Str × List Int) :
    (histStep cand acc row).b3 = acc.b3 + (if rowCnt cand row = 3 then 1 else 0) := by
  simp only [histStep]
  split_ifs with h1 h2 h2 <;> simp_all [bumpBucket_b3, rowCnt]

theorem histStep_b4 (cand : List Int) (acc : HistAcc) (row : Str × Str × List Int) :
    (histStep cand acc row).b4 = acc.b4 + (if rowCnt cand row = 4 then 1 else 0) := by
  simp only [histStep]
  split_ifs with h1 h2 h2 <;> simp_all [bumpBucket_b4, rowCnt]

theorem histStep_b5 (cand : List Int) (acc : HistAcc) (row : Str × Str × List Int) :
    (histStep cand acc row).b5 = acc.b5 + (if rowCnt cand row = 5 then 1 else 0) := by
  simp only [histStep]
  split_ifs with h1 h2 h2 <;> simp_all [bumpBucket_b5, rowCnt]

theorem histStep_b6 (cand : List Int) (acc : HistAcc) (row : Str × Str × List Int) :
    (histStep cand acc row).b6 = acc.b6 + (if rowCnt cand row = 6 then 1 else 0) := by
  simp only [histStep]
  split_ifs with h1 h2 h2 <;> simp_all [bumpBucket_b6, rowCnt]

theorem hist_fold_b2 (cand : List Int) (rows : List (Str × Str × List Int)) :
    ∀ acc : HistAcc, (rows.foldl (histStep cand) acc).b2 =
      acc.b2 + rows.countP (fun row => decide (rowCnt cand row = 2)) := by
  induction rows with
  | nil => intro acc; simp
  | cons r tl ih =>
    intro acc
    rw [List.foldl_cons, ih, histStep_b2, List.countP_cons]
    by_cases h : rowCnt cand r = 2 <;> simp [h] <;> omega

theorem hist_fold_b3 (cand : List Int) (rows : List (Str × Str × List Int)) :
    ∀ acc : HistAcc, (rows.foldl (histStep cand) acc).b3 =
      acc.b3 + rows.countP (fun row => decide (rowCnt cand row = 3)) := by
  induction rows with
  | nil => intro acc; simp
  | cons r tl ih =>
    intro acc
    rw [List.foldl_cons, ih, histStep_b3, List.countP_cons]
    by_cases h : rowCnt cand r = 3 <;> simp [h] <;> omega

theorem hist_fold_b4 (cand : List Int) (rows : List (Str × Str × List Int)) :
    ∀ acc : HistAcc, (rows.foldl (histStep cand) acc).b4 =
      acc.b4 + rows.countP (fun row => decide (rowCnt cand row = 4)) := by
  induction rows with
  | nil => intro acc; simp
  | cons r tl ih =>
    intro acc
    rw [List.foldl_cons, ih, histStep_b4, List.countP_cons]
    by_cases h : rowCnt cand r = 4 <;> simp [h] <;> omega

theorem hist_fold_b5 (cand : List Int) (rows : List (Str × Str × List Int)) :
    ∀ acc : HistAcc, (rows.foldl (histStep cand) acc).b5 =
      acc.b5 + rows.countP (fun row => decide (rowCnt cand row = 5)) := by
  induction rows with
  | nil => intro acc; simp
  | cons r tl ih =>
    intro acc
    rw [List.foldl_cons, ih, histStep_b5, List.countP_cons]
    by_cases h : rowCnt cand r = 5 <;> simp [h] <;> omega

theorem hist_fold_b6 (cand : List Int) (rows : List (Str × Str × List Int)) :
    ∀ acc : HistAcc, (rows.foldl (histStep cand) acc).b6 =
      acc.b6 + rows.countP (fun row => decide (rowCnt cand row = 6)) := by
  induction rows with
  | nil => intro acc; simp
  | cons r tl ih =>
    intro acc
    rw [List.foldl_cons, ih, histStep_b6, List.countP_cons]
    by_cases h : rowCnt cand r = 6 <;> simp [h] <;> omega

theorem hist_fold_max (cand : List Int) (rows : List (Str × Str × List Int)) :
    ∀ acc : HistAcc, (rows.foldl (histStep cand) acc).max_match =
      rows.foldl (fun a row => Nat.max a (rowCnt cand row)) acc.max_match := by
  induction rows with
  | nil => intro acc; simp
  | cons r tl ih =>
    intro acc
    rw [List.foldl_cons, ih, histStep_max, List.foldl_cons]

theorem le_foldlMax_init (f : α → Nat) (rows : List α) :
    ∀ a : Nat, a ≤ rows.foldl (fun a row => Nat.max a (f row)) a := by
  induction rows with
  | nil => intro a; simp
  | cons r tl ih =>
    intro a
    rw [List.foldl_cons]
    exact le_trans (Nat.le_max_left a (f r)) (ih _)

theorem foldlMax_ge_mem (f : α → Nat) (rows : List α) :
    ∀ a : Nat, ∀ r ∈ rows, f r ≤ rows.foldl (fun a row => Nat.max a (f row)) a := by
  induction rows with
  | nil => intro a r hr; simp at hr
  | cons x tl ih =>
    intro a r hr
    rw [List.foldl_cons]
    rcases List.mem_cons.mp hr with rfl | hr
    · exact le_trans (Nat.le_max_right a (f r)) (le_foldlMax_init f tl _)
    · exact ih _ r hr

theorem foldlMax_mem_or (f : α → Nat) (rows : List α) :
    ∀ a : Nat, rows.foldl (fun a row => Nat.max a (f row)) a = a ∨
      ∃ r ∈ rows, rows.foldl (fun a row => Nat.max a (f row)) a = f r := by
  induction rows with
  | nil => intro a; left; rfl
  | cons x tl ih =>
    intro a
    rw [List.foldl_cons]
    rcases ih (Nat.max a (f x)) with h | ⟨r, hr, h⟩
    · rcases Nat.le_total a (f x) with hle | hle
      · right
        exact ⟨x, List.mem_cons_self x tl, h.trans (Nat.max_eq_right hle)⟩
      · left
        exact h.trans (Nat.max_eq_left hle)
    · right
      exact ⟨r, List.mem_cons_of_mem x hr, h⟩

theorem hist_fold_records (cand : List Int) (rows : List (Str × Str × List Int)) :
    ∀ acc : HistAcc, (rows.foldl (histStep cand) acc).records =
      acc.records ++
        (rows.filter (fun row => decide (2 ≤ rowCnt cand row))).map (mkRecord cand) := by
  induction rows with
  | nil => intro acc; simp
  | cons r tl ih =>
    intro acc
    rw [List.foldl_cons, ih, histStep_records, List.filter_cons]
    by_cases h : 2 ≤ rowCnt cand r <;> simp [h]

/-- C5: `history_check` computes for every 大樂透 draw with stored main
numbers the size of the intersection of the candidate set with that
draw's mains, lists exactly the draws with intersection size ≥ 2 sorted
by match size descending then draw date descending, counts the buckets
2..6 over all compared draws, and the maximum observed match size covers
all compared draws including those below the listing threshold. -/
theorem historyCheck_spec (db : DBState) (cand : List Int) :
    (history_check db cand).total_draws = (historyRows db).length ∧
    (∀ row ∈ historyRows db,
      rowCnt cand row = (cand.toFinset ∩ row.2.2.toFinset).card) ∧
    (history_check db cand).records.Perm
      (((historyRows db).filter
        (fun row => decide (2 ≤ rowCnt cand row))).map (mkRecord cand)) ∧
    (history_check db cand).records.Pairwise (fun a b =>
      b.match_count < a.match_count ∨
      (a.match_count = b.match_count ∧ strLe b.draw_date a.draw_date = true)) ∧
    (history_check db cand).b2 =
      (historyRows db).countP (fun row => decide (rowCnt cand row = 2)) ∧
    (history_check db cand).b3 =
      (historyRows db).countP (fun row => decide (rowCnt cand row = 3)) ∧
    (history_check db cand).b4 =
      (historyRows db).countP (fun row => decide (rowCnt cand row = 4)) ∧
    (history_check db cand).b5 =
      (historyRows db).countP (fun row => decide (rowCnt cand row = 5)) ∧
    (history_check db cand).b6 =
      (historyRows db).countP (fun row => decide (rowCnt cand row = 6)) ∧
    (∀ row ∈ historyRows db, rowCnt cand row ≤ (history_check db cand).max_match) ∧
    ((history_check db cand).max_match = 0 ∨
      ∃ row ∈ historyRows db, (history_check db cand).max_match = rowCnt cand row) := by
  have hmax : (history_check db cand).max_match =
      (historyRows db).foldl (fun a row => Nat.max a (rowCnt cand row)) 0 := by
    show ((historyRows db).foldl (histStep cand) ⟨0, 0, 0, 0, 0, 0, []⟩).max_match = _
    rw [hist_fold_max]
  have hrecs : (history_check db cand).records =
      sortLe recLe (((historyRows db).filter
        (fun row => decide (2 ≤ rowCnt cand row))).map (mkRecord cand)) := by
    show sortLe recLe
      (((historyRows db).foldl (histStep cand) ⟨0, 0, 0, 0, 0, 0, []⟩).records) = _
    rw [hist_fold_records]
    simp
  refine ⟨rfl, ?_, ?_, ?_, ?_, ?_, ?_, ?_, ?_, ?_, ?_⟩
  · intro row _
    exact setInter_length cand row.2.2
  · rw [hrecs]
    exact sortLe_perm _ _
  · rw [hrecs]
    refine (sortLe_pairwise recLe recLe_total recLe_trans _).imp ?_
    intro a b h
    simpa [recLe, Bool.or_eq_true, Bool.and_eq_true, decide_eq_true_eq] using h
  · show ((historyRows db).foldl (histStep cand) ⟨0, 0, 0, 0, 0, 0, []⟩).b2 = _
    rw [hist_fold_b2]
    simp
  · show ((historyRows db).foldl (histStep cand) ⟨0, 0, 0, 0, 0, 0, []⟩).b3 = _
    rw [hist_fold_b3]
    simp
  · show ((historyRows db).foldl (histStep cand) ⟨0, 0, 0, 0, 0, 0, []⟩).b4 = _
    rw [hist_fold_b4]
    simp
  · show ((historyRows db).foldl (histStep cand) ⟨0, 0, 0, 0, 0, 0, []⟩).b5 = _
    rw [hist_fold_b5]
    simp
  · show ((historyRows db).foldl (histStep cand) ⟨0, 0, 0, 0, 0, 0, []⟩).b6 = _
    rw [hist_fold_b6]
    simp
  · intro row hrow
    rw [hmax]
    exact foldlMax_ge_mem _ _ 0 row hrow
  · rw [hmax]
    rcases foldlMax_mem_or (rowCnt cand) (historyRows db) 0 with h | ⟨r, hr, h⟩
    · left; exact h
    · right; exact ⟨r, hr, h⟩

/-- Witness for C5: the candidate set `{1,2,3,4,5,6}` against the stored
draw with mains `{1,2,3,7,8,9}` has computed match size 3. -/
theorem historyCheck_spec_witness :
    (("094001".toList, "2007-01-02".toList, ([1, 2, 3, 7, 8, 9] : List Int)) ∈
      historyRows db1) ∧
    rowCnt [1, 2, 3, 4, 5, 6]
      ("094001".toList, "2007-01-02".toList, ([1, 2, 3, 7, 8, 9] : List Int)) =
      (([1, 2, 3, 4, 5, 6] : List Int).toFinset ∩
        ([1, 2, 3, 7, 8, 9] : List Int).toFinset).card ∧
    (([1, 2, 3, 4, 5, 6] : List Int).toFinset ∩
      ([1, 2, 3, 7, 8, 9] : List Int).toFinset).card = 3 :=
  ⟨by decide,
    (historyCheck_spec db1 [1, 2, 3, 4, 5, 6]).2.1 _ (by decide),
    by decide⟩

/-! ### Basic facts about row parsing, draw lookup and updates -/

theorem parseRow_dn {cfg : GameConfig} {r : CsvRow} {rd : RowData}
    (h : parseRow cfg r = some rd) : rd.draw_number = pyStrip r.period := by
  rw [parseRow] at h
  split at h
  · rcases h with ⟨⟩
    rfl
  · exact absurd h (by simp)

theorem parseRow_dd {cfg : GameConfig} {r : CsvRow} {rd : RowData}
    (h : parseRow cfg r = some rd) : rd.draw_date = parse_date (pyStrip r.date) := by
  rw [parseRow] at h
  split at h
  · rcases h with ⟨⟩
    rfl
  · exact absurd h (by simp)

theorem parseRow_writes {cfg : GameConfig} {r : CsvRow} {rd : RowData}
    (h : parseRow cfg r = some rd) : rd.writes = rowWrites cfg r := by
  rw [parseRow] at h
  split at h
  · rcases h with ⟨⟩
    rfl
  · exact absurd h (by simp)

theorem parseRow_year_none {cfg : GameConfig} {r : CsvRow}
    (h : yearOfDate (parse_date (pyStrip r.date)) = none) : parseRow cfg r = none := by
  rw [parseRow, h]

theorem findDraw_mem {db : DBState} {gt dn : Str} {d : Draw}
    (h : findDraw db gt dn = some d) : d ∈ db.draws :=
  List.mem_of_find?_eq_some h

theorem findDraw_props {db : DBState} {gt dn : Str} {d : Draw}
    (h : findDraw db gt dn = some d) : d.game_type = gt ∧ d.draw_number = dn := by
  have := List.find?_some h
  simpa using this

theorem findDraw_none {db : DBState} {gt dn : Str}
    (h : findDraw db gt dn = none) :
    ∀ d ∈ db.draws, ¬(d.game_type = gt ∧ d.draw_number = dn) := by
  intro d hd
  have := List.find?_eq_none.mp h d hd
  simpa using this

theorem updateScalars_id (rd : RowData) (gt : Str) (d : Draw) :
    (updateScalars rd gt d).id = d.id := rfl

theorem updateScalars_dn (rd : RowData) (gt : Str) (d : Draw) :
    (updateScalars rd gt d).draw_number = d.draw_number := rfl

theorem updateScalars_key (rd : RowData) (gt : Str) (d : Draw) :
    drawKey (updateScalars rd gt d) = (gt, d.draw_number) := rfl

theorem updateScalars_idem (rd : RowData) (gt : Str) (d : Draw) :
    updateScalars rd gt (updateScalars rd gt d) = updateScalars rd gt d := rfl

theorem tagWrites_drawId {k : Nat} {ws : List (Int × NumKind × Nat)} {n : NumberRow}
    (h : n ∈ tagWrites k ws) : n.drawId = k := by
  rcases List.mem_map.mp h with ⟨w, -, rfl⟩
  rfl

theorem tagWrites_filter_eq (k : Nat) (ws : List (Int × NumKind × Nat)) :
    (tagWrites k ws).filter (fun n => decide (n.drawId = k)) = tagWrites k ws := by
  apply List.filter_eq_self.mpr
  intro n hn
  simp [tagWrites_drawId hn]

theorem tagWrites_filter_ne (k j : Nat) (hne : j ≠ k) (ws : List (Int × NumKind × Nat)) :
    (tagWrites k ws).filter (fun n => decide (n.drawId = j)) = [] := by
  apply List.filter_eq_nil_iff.mpr
  intro n hn
  simp [tagWrites_drawId hn, Ne.symm hne]

/-! ### The three shapes of `applyRow` -/

theorem applyRow_skip {cfg : GameConfig} {gt : Str} {db : DBState} {r : CsvRow}
    (hpr : parseRow cfg r = none) : applyRow cfg gt db r = db := by
  simp only [applyRow, hpr]

theorem applyRow_update {cfg : GameConfig} {gt : Str} {db : DBState} {r : CsvRow}
    {rd : RowData} {d : Draw} (hpr : parseRow cfg r = some rd)
    (hfind : findDraw db gt rd.draw_number = some d) :
    applyRow cfg gt db r =
      { draws := db.draws.map (fun x => if x.id = d.id then updateScalars rd gt x else x)
        numbers := db.numbers.filter (fun n => decide (n.drawId ≠ d.id)) ++
                   tagWrites d.id rd.writes
        nextId := db.nextId } := by
  simp only [applyRow, hpr, hfind]

theorem applyRow_insert {cfg : GameConfig} {gt : Str} {db : DBState} {r : CsvRow}
    {rd : RowData} (hpr : parseRow cfg r = some rd)
    (hfind : findDraw db gt rd.draw_number = none) :
    applyRow cfg gt db r =
      { draws := db.draws ++ [mkDraw db.nextId gt rd]
        numbers := db.numbers ++ tagWrites db.nextId rd.writes
        nextId := db.nextId + 1 } := by
  simp only [applyRow, hpr, hfind]
  rfl

/-! ### Wellformedness is preserved by the importer -/

theorem applyRow_WF (cfg : GameConfig) (gt : Str) (db : DBState) (r : CsvRow)
    (hWF : WF db) : WF (applyRow cfg gt db r) := by
  obtain ⟨hkeys, hids, hlt, hnlt⟩ := hWF
  cases hpr : parseRow cfg r with
  | none =>
    rw [applyRow_skip hpr]
    exact ⟨hkeys, hids, hlt, hnlt⟩
  | some rd =>
    cases hfind : findDraw db gt rd.draw_number with
    | some d =>
      rw [applyRow_update hpr hfind]
      obtain ⟨hdgt, hddn⟩ := findDraw_props hfind
      have hdmem : d ∈ db.draws := findDraw_mem hfind
      have hinj := List.inj_on_of_nodup_map hids
      have hg : ∀ x ∈ db.draws,
          drawKey (if x.id = d.id then updateScalars rd gt x else x) = drawKey x := by
        intro x hx
        by_cases hxid : x.id = d.id
        · have hxd : x = d := hinj hx hdmem hxid
          subst hxd
          rw [if_pos rfl, updateScalars_key, drawKey, hdgt]
        · rw [if_neg hxid]
      have hgid : ∀ x : Draw,
          (if x.id = d.id then updateScalars rd gt x else x).id = x.id := by
        intro x
        by_cases hxid : x.id = d.id
        · rw [if_pos hxid, updateScalars_id]
        · rw [if_neg hxid]
      refine ⟨?_, ?_, ?_, ?_⟩
      · have hmk : (db.draws.map
            (fun x => if x.id = d.id then updateScalars rd gt x else x)).map drawKey =
            db.draws.map drawKey := by
          rw [List.map_map]
          simp only [Function.comp_def]
          exact List.map_congr_left hg
        rw [hmk]
        exact hkeys
      · have hmi : (db.draws.map
            (fun x => if x.id = d.id then updateScalars rd gt x else x)).map Draw.id =
            db.draws.map Draw.id := by
          rw [List.map_map]
          simp only [Function.comp_def]
          exact List.map_congr_left (fun x _ => hgid x)
        rw [hmi]
        exact hids
      · intro x hx
        rcases List.mem_map.mp hx with ⟨y, hy, rfl⟩
        rw [hgid y]
        exact hlt y hy
      · intro n hn
        rcases List.mem_append.mp hn with hn | hn
        · exact hnlt n (List.mem_of_mem_filter hn)
        · rw [tagWrites_drawId hn]
          exact hlt d hdmem
    | none =>
      rw [applyRow_insert hpr hfind]
      refine ⟨?_, ?_, ?_, ?_⟩
      · rw [List.map_append, List.nodup_append]
        refine ⟨hkeys, by simp, ?_⟩
        intro k hk hk2
        simp only [List.map_cons, List.map_nil, List.mem_singleton] at hk2
        rcases List.mem_map.mp hk with ⟨x, hx, rfl⟩
        apply findDraw_none hfind x hx
        exact ⟨congrArg Prod.fst hk2, congrArg Prod.snd hk2⟩
      · rw [List.map_append, List.nodup_append]
        refine ⟨hids, by simp, ?_⟩
        intro k hk hk2
        simp only [List.map_cons, List.map_nil, List.mem_singleton] at hk2
        rcases List.mem_map.mp hk with ⟨x, hx, rfl⟩
        exact absurd hk2 (Nat.ne_of_lt (hlt x hx))
      · intro x hx
        rcases List.mem_append.mp hx with hx | hx
        · exact Nat.lt_succ_of_lt (hlt x hx)
        · simp only [List.mem_singleton] at hx
          subst hx
          exact Nat.lt_succ_self _
      · intro n hn
        rcases List.mem_append.mp hn with hn | hn
        · exact Nat.lt_succ_of_lt (hnlt n hn)
        · rw [tagWrites_drawId hn]
          exact Nat.lt_succ_self _

theorem importFile_WF (cfg : GameConfig) (gt : Str) (rows : List CsvRow) :
    ∀ db : DBState, WF db → WF (importFile cfg gt db rows) := by
  induction rows with
  | nil => intro db h; exact h
  | cons r tl ih =>
    intro db h
    exact ih (applyRow cfg gt db r) (applyRow_WF cfg gt db r h)

theorem importRuns_WF (runs : List (GameConfig × Str × List CsvRow)) :
    ∀ db : DBState, WF db → WF (importRuns db runs) := by
  induction runs with
  | nil => intro db h; exact h
  | cons t tl ih =>
    intro db h
    exact ih _ (importFile_WF t.1 t.2.1 t.2.2 db h)

/-! ### Claim C3 -/

theorem find?_update (pr : Draw → Bool) (rd : RowData) (gt : Str) (d : Draw)
    (hp : pr (updateScalars rd gt d) = true) :
    ∀ l : List Draw, l.find? pr = some d → (∀ x ∈ l, x.id = d.id → x = d) →
    (l.map (fun x => if x.id = d.id then updateScalars rd gt x else x)).find? pr =
      some (updateScalars rd gt d) := by
  intro l
  induction l with
  | nil => intro h; simp at h
  | cons x tl ih =>
    intro h huniq
    rw [List.find?_cons] at h
    rw [List.map_cons, List.find?_cons]
    cases hpx : pr x with
    | true =>
      rw [hpx] at h
      rcases h with ⟨⟩
      rw [if_pos rfl, hp]
    | false =>
      rw [hpx] at h
      have hxd : x.id ≠ d.id := by
        intro hid
        have hxe := huniq x (List.mem_cons_self x tl) hid
        rw [hxe] at hpx
        simp [List.find?_some h] at hpx
      rw [if_neg hxd, hpx]
      exact ih h (fun y hy => huniq y (List.mem_cons_of_mem x hy))

theorem findDraw_after_update {db : DBState} {gt : Str} {rd : RowData} {d : Draw}
    (hids : (db.draws.map Draw.id).Nodup)
    (hfind : findDraw db gt rd.draw_number = some d) :
    findDraw
      { draws := db.draws.map (fun x => if x.id = d.id then updateScalars rd gt x else x)
        numbers := db.numbers.filter (fun n => decide (n.drawId ≠ d.id)) ++
                   tagWrites d.id rd.writes
        nextId := db.nextId } gt rd.draw_number = some (updateScalars rd gt d) := by
  have hinj := List.inj_on_of_nodup_map hids
  obtain ⟨hdgt, hddn⟩ := findDraw_props hfind
  apply find?_update
  · simp [updateScalars, hddn]
  · exact hfind
  · intro x hx hid
    exact hinj hx (findDraw_mem hfind) hid

/-- C3: natural-key uniqueness — wellformedness (in particular uniqueness
of `(game_type, draw_number)`) is preserved by any sequence of import
runs; and re-importing a row whose key already exists (for example with a
changed sales amount) updates the existing draw row in place — the draw
count does not change, the found row keeps its id, and its scalar fields
take the new values. -/
theorem naturalKey_unique (db : DBState) (runs : List (GameConfig × Str × List CsvRow))
    (cfg : GameConfig) (gt : Str) (r : CsvRow) (rd : RowData) (d : Draw)
    (hWF : WF db)
    (hpr : parseRow cfg r = some rd)
    (hfind : findDraw db gt rd.draw_number = some d) :
    ((importRuns db runs).draws.map drawKey).Nodup ∧
    (applyRow cfg gt db r).draws.length = db.draws.length ∧
    findDraw (applyRow cfg gt db r) gt rd.draw_number = some (updateScalars rd gt d) ∧
    (updateScalars rd gt d).id = d.id ∧
    (updateScalars rd gt d).sales_amount = rd.sales_amount := by
  refine ⟨(importRuns_WF runs db hWF).1, ?_, ?_, rfl, rfl⟩
  · rw [applyRow_update hpr hfind]
    exact List.length_map _ _
  · rw [applyRow_update hpr hfind]
    exact findDraw_after_update hWF.2.1 hfind

/-- Witness for C3: re-importing the stored draw with sales amount 999
updates it in place in the one-draw database. -/
theorem naturalKey_unique_witness :
    WF db1 ∧ parseRow cfgBig row1b = some rdRow1b ∧
    findDraw db1 bigLotto rdRow1b.draw_number = some d1draw ∧
    (applyRow cfgBig bigLotto db1 row1b).draws.length = db1.draws.length :=
  ⟨by decide, by decide, by decide,
    (naturalKey_unique db1 [] cfgBig bigLotto row1b rdRow1b d1draw
      (by decide) (by decide) (by decide)).2.1⟩

/-! ### Claim C2 -/

theorem filter_ne_then_eq (ns : List NumberRow) (k j : Nat) (h : j ≠ k) :
    ((ns.filter (fun n => decide (n.drawId ≠ k))).filter
      (fun n => decide (n.drawId = j))) =
    ns.filter (fun n => decide (n.drawId = j)) := by
  rw [List.filter_filter]
  apply List.filter_congr
  intro n _
  by_cases hn : n.drawId = j
  · simp [hn, h]
  · simp [hn]

/-- C2 counterexample: the row `badRow` raises mid-row (its main-number
loop does not complete), yet after processing it the store holds a new
draw together with just one of its main numbers — the partial row is
retained, not rolled back. -/
theorem perRowAtomicity_counterexample :
    (mainsLoop badRow.mains 1 cfgBig.main_numbers).2 = false ∧
    applyRow cfgBig bigLotto emptyDB badRow ≠ emptyDB ∧
    (applyRow cfgBig bigLotto emptyDB badRow).draws.length = 1 ∧
    (applyRow cfgBig bigLotto emptyDB badRow).numbers =
      [{ drawId := 1, number := 1, kind := NumKind.main, position := 1 }] := by
  refine ⟨by decide, by decide, by decide, by decide⟩

/-- C2 amended: one CSV row is processed in a single pass without a
per-row transaction.  A failure during scalar parsing (before any write)
leaves the store unchanged for that row, and whatever happens to the row,
the draws of other natural keys and their numbers are untouched; but a
failure after the writes began keeps the partial writes (see the
counterexample). -/
theorem perRowAtomicity_amended (cfg : GameConfig) (gt : Str) (db : DBState)
    (r : CsvRow) (hWF : WF db) :
    (parseRow cfg r = none → applyRow cfg gt db r = db) ∧
    (∀ rd, parseRow cfg r = some rd →
      ∀ d ∈ db.draws, drawKey d ≠ (gt, rd.draw_number) →
        d ∈ (applyRow cfg gt db r).draws ∧
        (applyRow cfg gt db r).numbers.filter (fun n => decide (n.drawId = d.id)) =
          db.numbers.filter (fun n => decide (n.drawId = d.id))) := by
  obtain ⟨hkeys, hids, hlt, hnlt⟩ := hWF
  constructor
  · intro hpr
    exact applyRow_skip hpr
  · intro rd hpr d hd hkey
    cases hfind : findDraw db gt rd.draw_number with
    | some d0 =>
      rw [applyRow_update hpr hfind]
      obtain ⟨hgt0, hdn0⟩ := findDraw_props hfind
      have hd0mem : d0 ∈ db.draws := findDraw_mem hfind
      have hne : d ≠ d0 := by
        intro hdd
        apply hkey
        rw [hdd, drawKey, hgt0, hdn0]
      have hidne : d.id ≠ d0.id := by
        intro hid
        exact hne (List.inj_on_of_nodup_map hids hd hd0mem hid)
      constructor
      · have : (if d.id = d0.id then updateScalars rd gt d else d) = d := if_neg hidne
        rw [← this]
        exact List.mem_map_of_mem _ hd
      · rw [List.filter_append, tagWrites_filter_ne d0.id d.id hidne,
          List.append_nil, filter_ne_then_eq db.numbers d0.id d.id hidne]
    | none =>
      rw [applyRow_insert hpr hfind]
      constructor
      · exact List.mem_append_left _ hd
      · have hidne : d.id ≠ db.nextId := Nat.ne_of_lt (hlt d hd)
        rw [List.filter_append, tagWrites_filter_ne db.nextId d.id hidne,
          List.append_nil]

/-- Witness for C2's amended claim: a row of a fresh key does not modify
the stored draw of another key. -/
theorem perRowAtomicity_amended_witness :
    WF db1 ∧ parseRow cfgBig badRow = some
      { draw_number := "094002".toList, draw_date := "2007-01-03".toList
        sales_amount := none, sales_bets := none, total_prize := none
        year := 2007, writes := [(1, NumKind.main, 1)] } ∧
    d1draw ∈ db1.draws ∧
    d1draw ∈ (applyRow cfgBig bigLotto db1 badRow).draws :=
  ⟨by decide, by decide, by decide,
    ((perRowAtomicity_amended cfgBig bigLotto db1 badRow (by decide)).2
      { draw_number := "094002".toList, draw_date := "2007-01-03".toList
        sales_amount := none, sales_bets := none, total_prize := none
        year := 2007, writes := [(1, NumKind.main, 1)] }
      (by decide) d1draw (by decide) (by decide)).1⟩

/-! ### Claim C8 -/

/-- C8 counterexample: the date string `x` does not parse and is returned
unchanged by `parse_date`, but the row it belongs to then fails at
`int(draw_date.split('-')[0])` and is skipped — nothing is stored. -/
theorem dateHandling_counterexample :
    parse_date "x".toList = "x".toList ∧
    parseRow cfgBig badDateRow = none ∧
    applyRow cfgBig bigLotto emptyDB badDateRow = emptyDB := by
  refine ⟨by decide, by decide, ?_⟩
  exact applyRow_skip (by decide)

/-- C8 amended: a `YYYY/MM/DD` draw date is converted to ISO
`YYYY-MM-DD`; a date that does not parse is passed through `parse_date`
unchanged, and the row stores that unchanged string exactly when the
text before the first `-` parses as an integer (the derived year) —
otherwise the row fails and is skipped before any write. -/
theorem dateHandling_amended (cfg : GameConfig) (r : CsvRow) :
    (∀ y m d, parseYMD (pyStrip r.date) = some (y, m, d) →
      parse_date (pyStrip r.date) = natDigits y ++ '-' :: (pad2 m ++ '-' :: pad2 d)) ∧
    (parseYMD (pyStrip r.date) = none →
      parse_date (pyStrip r.date) = pyStrip r.date) ∧
    (∀ rd, parseRow cfg r = some rd → rd.draw_date = parse_date (pyStrip r.date)) ∧
    (yearOfDate (parse_date (pyStrip r.date)) = none → parseRow cfg r = none) := by
  refine ⟨?_, ?_, ?_, ?_⟩
  · intro y m d h
    rw [parse_date, h]
  · intro h
    rw [parse_date, h]
  · intro rd h
    exact parseRow_dd h
  · intro h
    exact parseRow_year_none h

/-- Witness for C8's amended claim: conversion of `2007/01/02`, the
skip of the row with date `x`, and the `strptime`/`int` boundary —
a three-digit year does not parse (and then fails the row), a
space-padded day parses, and an underscore-grouped year string keeps
the row alive. -/
theorem dateHandling_amended_witness :
    parseYMD (pyStrip row1.date) = some (2007, 1, 2) ∧
    parse_date (pyStrip row1.date) =
      natDigits 2007 ++ '-' :: (pad2 1 ++ '-' :: pad2 2) ∧
    yearOfDate (parse_date (pyStrip badDateRow.date)) = none ∧
    parseRow cfgBig badDateRow = none ∧
    parseYMD "207/01/02".toList = none ∧
    yearOfDate (parse_date "207/01/02".toList) = none ∧
    parseYMD "2007/01/ 1".toList = some (2007, 1, 1) ∧
    parse_date "2007/01/ 1".toList = "2007-01-01".toList ∧
    pyInt "2_007".toList = some 2007 ∧
    yearOfDate (parse_date "2_007".toList) = some 2007 :=
  ⟨by decide,
    (dateHandling_amended cfgBig row1).1 2007 1 2 (by decide),
    by decide,
    (dateHandling_amended cfgBig badDateRow).2.2.2 (by decide),
    by decide, by decide, by decide, by decide, by decide, by decide⟩

/-! ### Claim C1: supporting lemmas -/

theorem find?_congr_mem {p q : α → Bool} :
    ∀ {l : List α}, (∀ x ∈ l, p x = q x) → l.find? p = l.find? q := by
  intro l
  induction l with
  | nil => intro _; rfl
  | cons x tl ih =>
    intro h
    rw [List.find?_cons, List.find?_cons, h x (List.mem_cons_self x tl)]
    cases q x with
    | true => rfl
    | false => exact ih (fun y hy => h y (List.mem_cons_of_mem x hy))

theorem filter_ne_self_nil (ns : List NumberRow) (k : Nat) :
    ((ns.filter (fun n => decide (n.drawId ≠ k))).filter
      (fun n => decide (n.drawId = k))) = [] := by
  rw [List.filter_filter]
  apply List.filter_eq_nil_iff.mpr
  intro n _
  by_cases h : n.drawId = k <;> simp [h]

theorem filter_partition_perm (ns : List NumberRow) (k : Nat) :
    ((ns.filter (fun n => decide (n.drawId ≠ k))) ++
      (ns.filter (fun n => decide (n.drawId = k)))).Perm ns := by
  have hcongr : ns.filter (fun n => decide (n.drawId = k)) =
      ns.filter (fun n => !(decide (n.drawId ≠ k))) := by
    apply List.filter_congr
    intro n _
    by_cases h : n.drawId = k <;> simp [h]
  rw [hcongr]
  exact List.filter_append_perm _ ns

theorem findDraw_eq_of_draws {s s1 : DBState} (h : s.draws = s1.draws)
    (gt dn : Str) : findDraw s gt dn = findDraw s1 gt dn := by
  rw [findDraw, findDraw, h]

theorem filter_lt_nextId_nil {db : DBState}
    (hnlt : ∀ n ∈ db.numbers, n.drawId < db.nextId) :
    db.numbers.filter (fun n => decide (n.drawId = db.nextId)) = [] := by
  apply List.filter_eq_nil_iff.mpr
  intro n hn
  simp [Nat.ne_of_lt (hnlt n hn)]

theorem applyRow_newFact (cfg : GameConfig) (gt : Str) (s : DBState) (r : CsvRow)
    (rd : RowData) (hWF : WF s) (hpr : parseRow cfg r = some rd) :
    DrawFact (applyRow cfg gt s r) gt rd := by
  obtain ⟨hkeys, hids, hlt, hnlt⟩ := hWF
  cases hfind : findDraw s gt rd.draw_number with
  | some d =>
    rw [applyRow_update hpr hfind]
    refine ⟨updateScalars rd gt d, findDraw_after_update hids hfind, ?_, ?_⟩
    · rw [updateScalars_id, List.filter_append, filter_ne_self_nil,
        tagWrites_filter_eq, List.nil_append]
    · exact updateScalars_idem rd gt d
  | none =>
    rw [applyRow_insert hpr hfind]
    refine ⟨mkDraw s.nextId gt rd, ?_, ?_, ?_⟩
    · rw [findDraw, List.find?_append]
      have h1 : s.draws.find?
          (fun d => decide (d.game_type = gt ∧ d.draw_number = rd.draw_number)) = none :=
        hfind
      rw [h1]
      simp [mkDraw]
    · show ((s.numbers ++ tagWrites s.nextId rd.writes).filter
        (fun n => decide (n.drawId = s.nextId))) = _
      rw [List.filter_append, filter_lt_nextId_nil hnlt, tagWrites_filter_eq,
        List.nil_append]
      rfl
    · rfl

theorem applyRow_keepFact (cfg : GameConfig) (gt : Str) (s : DBState) (r0 : CsvRow)
    (rd : RowData) (hWF : WF s) (hfact : DrawFact s gt rd)
    (hdn : ∀ rd0, parseRow cfg r0 = some rd0 → rd0.draw_number ≠ rd.draw_number) :
    DrawFact (applyRow cfg gt s r0) gt rd := by
  obtain ⟨hkeys, hids, hlt, hnlt⟩ := hWF
  obtain ⟨d, hfind, hnum, hupd⟩ := hfact
  have hdmem : d ∈ s.draws := findDraw_mem hfind
  obtain ⟨hdgt, hddn⟩ := findDraw_props hfind
  cases hpr : parseRow cfg r0 with
  | none =>
    rw [applyRow_skip hpr]
    exact ⟨d, hfind, hnum, hupd⟩
  | some rd0 =>
    have hdn0 : rd0.draw_number ≠ rd.draw_number := hdn rd0 hpr
    cases hfind0 : findDraw s gt rd0.draw_number with
    | some d0 =>
      rw [applyRow_update hpr hfind0]
      have hd0mem : d0 ∈ s.draws := findDraw_mem hfind0
      obtain ⟨hd0gt, hd0dn⟩ := findDraw_props hfind0
      have hne : d ≠ d0 := by
        intro h
        apply hdn0
        rw [← hd0dn, ← h, hddn]
      have hidne : d.id ≠ d0.id := by
        intro h
        exact hne (List.inj_on_of_nodup_map hids hdmem hd0mem h)
      refine ⟨d, ?_, ?_, hupd⟩
      · show (s.draws.map
          (fun x => if x.id = d0.id then updateScalars rd0 gt x else x)).find?
          (fun x => decide (x.game_type = gt ∧ x.draw_number = rd.draw_number)) = some d
        rw [List.find?_map]
        have hcongr : s.draws.find?
            ((fun x => decide (x.game_type = gt ∧ x.draw_number = rd.draw_number)) ∘
              (fun x => if x.id = d0.id then updateScalars rd0 gt x else x)) =
            s.draws.find?
            (fun x => decide (x.game_type = gt ∧ x.draw_number = rd.draw_number)) := by
          apply find?_congr_mem
          intro x hx
          by_cases hxid : x.id = d0.id
          · have hxd0 : x = d0 := List.inj_on_of_nodup_map hids hx hd0mem hxid
            subst hxd0
            simp only [Function.comp_apply, if_pos hxid]
            simp [updateScalars, hd0gt]
          · simp only [Function.comp_apply, if_neg hxid]
        have h1 : s.draws.find?
            (fun x => decide (x.game_type = gt ∧ x.draw_number = rd.draw_number)) =
            some d := hfind
        rw [hcongr, h1, Option.map_some']
        rw [if_neg hidne]
      · show ((s.numbers.filter (fun n => decide (n.drawId ≠ d0.id)) ++
          tagWrites d0.id rd0.writes).filter (fun n => decide (n.drawId = d.id))) = _
        rw [List.filter_append, tagWrites_filter_ne d0.id d.id hidne,
          List.append_nil, filter_ne_then_eq s.numbers d0.id d.id hidne, hnum]
    | none =>
      rw [applyRow_insert hpr hfind0]
      refine ⟨d, ?_, ?_, hupd⟩
      · show ((s.draws ++ [mkDraw s.nextId gt rd0]).find?
          (fun x => decide (x.game_type = gt ∧ x.draw_number = rd.draw_number))) = some d
        rw [List.find?_append]
        have h1 : s.draws.find?
            (fun x => decide (x.game_type = gt ∧ x.draw_number = rd.draw_number)) =
            some d := hfind
        rw [h1]
        rfl
      · show ((s.numbers ++ tagWrites s.nextId rd0.writes).filter
          (fun n => decide (n.drawId = d.id))) = _
        have hidlt : d.id ≠ s.nextId := Nat.ne_of_lt (hlt d hdmem)
        rw [List.filter_append, tagWrites_filter_ne s.nextId d.id hidlt,
          List.append_nil, hnum]

theorem importFile_append_one (cfg : GameConfig) (gt : Str) (db : DBState)
    (rs : List CsvRow) (r0 : CsvRow) :
    importFile cfg gt db (rs ++ [r0]) = applyRow cfg gt (importFile cfg gt db rs) r0 := by
  rw [importFile, importFile, List.foldl_append]
  rfl

theorem importFile_fact (cfg : GameConfig) (gt : Str) (rows : List CsvRow) :
    ∀ db : DBState, WF db →
    (rows.map (fun r => pyStrip r.period)).Nodup →
    ∀ r ∈ rows, ∀ rd, parseRow cfg r = some rd →
    DrawFact (importFile cfg gt db rows) gt rd := by
  induction rows using List.reverseRecOn with
  | nil => intro db _ _ r hr; simp at hr
  | append_singleton rs r0 ih =>
    intro db hWF hnd r hr rd hpr
    rw [importFile_append_one]
    have hWFs : WF (importFile cfg gt db rs) := importFile_WF cfg gt rs db hWF
    rw [List.map_append, List.nodup_append] at hnd
    obtain ⟨hnd1, -, hdisj⟩ := hnd
    rcases List.mem_append.mp hr with hr | hr
    · have hfact := ih db hWF hnd1 r hr rd hpr
      apply applyRow_keepFact cfg gt _ r0 rd hWFs hfact
      intro rd0 hpr0
      rw [parseRow_dn hpr0, parseRow_dn hpr]
      intro heq
      exact hdisj (List.mem_map_of_mem _ hr) (by simp [heq])
    · simp only [List.mem_singleton] at hr
      subst hr
      exact applyRow_newFact cfg gt _ r rd hWFs hpr

theorem applyRow_restore (cfg : GameConfig) (gt : Str) (r : CsvRow)
    (s s1 : DBState) (hWF1 : WF s1) (hss : SameStore s s1)
    (hfact : ∀ rd, parseRow cfg r = some rd → DrawFact s1 gt rd) :
    SameStore (applyRow cfg gt s r) s1 := by
  obtain ⟨hdraws, hnext, hfilters, hperm⟩ := hss
  cases hpr : parseRow cfg r with
  | none =>
    rw [applyRow_skip hpr]
    exact ⟨hdraws, hnext, hfilters, hperm⟩
  | some rd =>
    obtain ⟨d, hfind1, hnum1, hupd1⟩ := hfact rd hpr
    have hdmem : d ∈ s1.draws := findDraw_mem hfind1
    have hfind : findDraw s gt rd.draw_number = some d :=
      (findDraw_eq_of_draws hdraws gt rd.draw_number).trans hfind1
    rw [applyRow_update hpr hfind]
    have hids1 : (s1.draws.map Draw.id).Nodup := hWF1.2.1
    have hinj := List.inj_on_of_nodup_map hids1
    refine ⟨?_, hnext, ?_, ?_⟩
    · show (s.draws.map fun x => if x.id = d.id then updateScalars rd gt x else x) = _
      rw [hdraws]
      have hptw : ∀ x ∈ s1.draws,
          (if x.id = d.id then updateScalars rd gt x else x) = x := by
        intro x hx
        by_cases hxid : x.id = d.id
        · have hxd : x = d := hinj hx hdmem hxid
          subst hxd
          rw [if_pos hxid, hupd1]
        · rw [if_neg hxid]
      rw [List.map_congr_left hptw, List.map_id']
    · intro k
      show ((s.numbers.filter (fun n => decide (n.drawId ≠ d.id)) ++
        tagWrites d.id rd.writes).filter (fun n => decide (n.drawId = k))) = _
      by_cases hk : k = d.id
      · subst hk
        rw [List.filter_append, filter_ne_self_nil, tagWrites_filter_eq,
          List.nil_append, hnum1]
      · rw [List.filter_append, tagWrites_filter_ne d.id k (Ne.symm (fun h => hk h.symm)),
          List.append_nil, filter_ne_then_eq s.numbers d.id k hk, hfilters k]
    · show ((s.numbers.filter (fun n => decide (n.drawId ≠ d.id)) ++
        tagWrites d.id rd.writes)).Perm s1.numbers
      have h1 : tagWrites d.id rd.writes =
          s.numbers.filter (fun n => decide (n.drawId = d.id)) := by
        rw [hfilters d.id, hnum1]
      rw [h1]
      exact (filter_partition_perm s.numbers d.id).trans hperm

theorem importFile_restore (cfg : GameConfig) (gt : Str) (rows2 : List CsvRow)
    (s1 : DBState) (hWF1 : WF s1)
    (hfacts : ∀ r ∈ rows2, ∀ rd, parseRow cfg r = some rd → DrawFact s1 gt rd) :
    ∀ s : DBState, SameStore s s1 → SameStore (importFile cfg gt s rows2) s1 := by
  induction rows2 with
  | nil => intro s h; exact h
  | cons r tl ih =>
    intro s h
    show SameStore (importFile cfg gt (applyRow cfg gt s r) tl) s1
    apply ih
    · intro r' hr' rd hpr
      exact hfacts r' (List.mem_cons_of_mem r hr') rd hpr
    · exact applyRow_restore cfg gt r s s1 hWF1 h
        (fun rd hpr => hfacts r (List.mem_cons_self r tl) rd hpr)

/-- C1: importing the same CSV file (rows with pairwise-distinct draw
identifiers) a second time leaves the store state of the first run: the
draws table and the next id are literally unchanged, every draw keeps
exactly the same number rows, and the numbers table as a whole is the
same multiset of rows (the reinsertion may reorder it). -/
theorem import_idempotent (cfg : GameConfig) (gt : Str) (db : DBState)
    (rows : List CsvRow) (hWF : WF db)
    (hkeys : (rows.map (fun r => pyStrip r.period)).Nodup) :
    SameStore (importFile cfg gt (importFile cfg gt db rows) rows)
      (importFile cfg gt db rows) := by
  have hWF1 : WF (importFile cfg gt db rows) := importFile_WF cfg gt rows db hWF
  apply importFile_restore cfg gt rows _ hWF1
  · intro r hr rd hpr
    exact importFile_fact cfg gt rows db hWF hkeys r hr rd hpr
  · exact ⟨rfl, rfl, fun _ => rfl, List.Perm.refl _⟩

/-- Witness for C1 at the one-row file `[row1]` over the empty store. -/
theorem import_idempotent_witness :
    WF emptyDB ∧ (([row1].map (fun r => pyStrip r.period)).Nodup) ∧
    (importFile cfgBig bigLotto (importFile cfgBig bigLotto emptyDB [row1]) [row1]).draws =
      (importFile cfgBig bigLotto emptyDB [row1]).draws :=
  ⟨by decide, by decide,
    (import_idempotent cfgBig bigLotto emptyDB [row1] (by decide) (by decide)).1⟩

/-! ### Claim C9: supporting lemmas -/

theorem filter_map_update_eq {db : DBState} {d0 : Draw} {rd : RowData} {gtB : Str}
    (hids : (db.draws.map Draw.id).Nodup) (hd0 : d0 ∈ db.draws)
    (p : Draw → Bool) (hp0 : p d0 = false)
    (hp0' : p (updateScalars rd gtB d0) = false) :
    (db.draws.map (fun x => if x.id = d0.id then updateScalars rd gtB x else x)).filter p =
      db.draws.filter p := by
  have hinj := List.inj_on_of_nodup_map hids
  rw [List.filter_map]
  have hptw : ∀ x ∈ db.draws,
      (p ∘ fun x => if x.id = d0.id then updateScalars rd gtB x else x) x = p x := by
    intro x hx
    by_cases hxid : x.id = d0.id
    · have hxd : x = d0 := hinj hx hd0 hxid
      subst hxd
      simp only [Function.comp_apply]
      rw [if_pos trivial, hp0', hp0]
    · simp only [Function.comp_apply, if_neg hxid]
  rw [List.filter_congr hptw]
  have hmapid : ∀ x ∈ db.draws.filter p,
      (if x.id = d0.id then updateScalars rd gtB x else x) = x := by
    intro x hx
    have hx' := List.mem_filter.mp hx
    by_cases hxid : x.id = d0.id
    · have hxd : x = d0 := hinj hx'.1 hd0 hxid
      rw [hxd] at hx'
      rw [hp0] at hx'
      exact absurd hx'.2 (by simp)
    · rw [if_neg hxid]
  rw [List.map_congr_left hmapid, List.map_id']

theorem flatMap_nil_of_forall {l : List α} {f : α → List β}
    (h : ∀ x ∈ l, f x = []) : l.flatMap f = [] := by
  induction l with
  | nil => rfl
  | cons x tl ih =>
    rw [List.flatMap_cons, h x (List.mem_cons_self x tl), List.nil_append]
    exact ih (fun y hy => h y (List.mem_cons_of_mem x hy))

theorem flatMap_filter_ne {l : List NumberRow} {f : NumberRow → List β} {k : Nat}
    (h : ∀ n ∈ l, n.drawId = k → f n = []) :
    (l.filter (fun n => decide (n.drawId ≠ k))).flatMap f = l.flatMap f := by
  induction l with
  | nil => rfl
  | cons n tl ih =>
    rw [List.filter_cons, List.flatMap_cons]
    by_cases hn : n.drawId = k
    · have hd : (decide (n.drawId ≠ k)) = false := by simp [hn]
      rw [hd]
      simp only [Bool.false_eq_true, if_false]
      rw [h n (List.mem_cons_self n tl) hn, List.nil_append]
      exact ih (fun y hy hyk => h y (List.mem_cons_of_mem n hy) hyk)
    · have hd : (decide (n.drawId ≠ k)) = true := by simp [hn]
      rw [hd]
      simp only [if_true]
      rw [List.flatMap_cons, ih (fun y hy hyk => h y (List.mem_cons_of_mem n hy) hyk)]

theorem bool_comm_three (a b c : Bool) : ((a && b) && c) = ((b && c) && a) := by
  cases a <;> cases b <;> cases c <;> rfl

theorem comboInner_per_id {db1 db2 : DBState} {nums : List Int} {did : Nat}
    (h : db1.numbers.filter (fun n => decide (n.drawId = did)) =
      db2.numbers.filter (fun n => decide (n.drawId = did))) :
    comboInner db1 nums did = comboInner db2 nums did := by
  have hsplit : ∀ db : DBState, db.numbers.filter (fun n =>
      decide (n.drawId = did) && decide (n.kind = NumKind.main) &&
      decide (n.number ∈ nums)) =
      (db.numbers.filter (fun n => decide (n.drawId = did))).filter
        (fun n => decide (n.kind = NumKind.main) && decide (n.number ∈ nums)) := by
    intro db
    rw [List.filter_filter]
    apply List.filter_congr
    intro n _
    exact bool_comm_three _ _ _
  rw [comboInner, comboInner, hsplit, hsplit, h]

theorem drawMains_per_id {db1 db2 : DBState} {did : Nat}
    (h : db1.numbers.filter (fun n => decide (n.drawId = did)) =
      db2.numbers.filter (fun n => decide (n.drawId = did))) :
    drawMains db1 did = drawMains db2 did := by
  have hsplit : ∀ db : DBState, db.numbers.filter (fun n =>
      decide (n.drawId = did) && decide (n.kind = NumKind.main)) =
      (db.numbers.filter (fun n => decide (n.drawId = did))).filter
        (fun n => decide (n.kind = NumKind.main)) := by
    intro db
    rw [List.filter_filter]
    apply List.filter_congr
    intro n _
    exact Bool.and_comm _ _
  rw [drawMains, drawMains, hsplit, hsplit, h]

theorem applyRow_numbers_of_gt (cfg : GameConfig) (gtB : Str) (db : DBState)
    (r : CsvRow) (hWF : WF db) (x : Draw) (hx : x ∈ db.draws)
    (hgt : x.game_type ≠ gtB) :
    (applyRow cfg gtB db r).numbers.filter (fun n => decide (n.drawId = x.id)) =
      db.numbers.filter (fun n => decide (n.drawId = x.id)) := by
  obtain ⟨hkeys, hids, hlt, hnlt⟩ := hWF
  cases hpr : parseRow cfg r with
  | none => rw [applyRow_skip hpr]
  | some rd =>
    cases hfind : findDraw db gtB rd.draw_number with
    | some d0 =>
      rw [applyRow_update hpr hfind]
      obtain ⟨hd0gt, -⟩ := findDraw_props hfind
      have hne : x ≠ d0 := fun h => hgt (h ▸ hd0gt)
      have hidne : x.id ≠ d0.id := fun h =>
        hne (List.inj_on_of_nodup_map hids hx (findDraw_mem hfind) h)
      show ((db.numbers.filter (fun n => decide (n.drawId ≠ d0.id)) ++
        tagWrites d0.id rd.writes).filter (fun n => decide (n.drawId = x.id))) = _
      rw [List.filter_append, tagWrites_filter_ne d0.id x.id hidne,
        List.append_nil, filter_ne_then_eq db.numbers d0.id x.id hidne]
    | none =>
      rw [applyRow_insert hpr hfind]
      show ((db.numbers ++ tagWrites db.nextId rd.writes).filter
        (fun n => decide (n.drawId = x.id))) = _
      rw [List.filter_append,
        tagWrites_filter_ne db.nextId x.id (Nat.ne_of_lt (hlt x hx)),
        List.append_nil]

theorem applyRow_draws_filter (cfg : GameConfig) (gtB : Str) (db : DBState)
    (r : CsvRow) (hWF : WF db) (p : Draw → Bool)
    (hp : ∀ x : Draw, x.game_type = gtB → p x = false) :
    (applyRow cfg gtB db r).draws.filter p = db.draws.filter p := by
  obtain ⟨hkeys, hids, hlt, hnlt⟩ := hWF
  cases hpr : parseRow cfg r with
  | none => rw [applyRow_skip hpr]
  | some rd =>
    cases hfind : findDraw db gtB rd.draw_number with
    | some d0 =>
      rw [applyRow_update hpr hfind]
      exact filter_map_update_eq hids (findDraw_mem hfind) p
        (hp d0 (findDraw_props hfind).1) (hp _ rfl)
    | none =>
      rw [applyRow_insert hpr hfind]
      show ((db.draws ++ [mkDraw db.nextId gtB rd]).filter p) = _
      rw [List.filter_append]
      have hmk : [mkDraw db.nextId gtB rd].filter p = [] := by
        rw [List.filter_cons, hp (mkDraw db.nextId gtB rd) rfl]
        simp
      rw [hmk, List.append_nil]

theorem applyRow_flatMap_eq (cfg : GameConfig) (gtB : Str) (db : DBState)
    (r : CsvRow) (hWF : WF db) (kindp : NumberRow → Bool) (f : NumberRow → List Int)
    (hf : ∀ n : NumberRow, (∀ x ∈ db.draws, x.id = n.drawId → x.game_type = gtB) →
      f n = []) :
    ((applyRow cfg gtB db r).numbers.filter kindp).flatMap f =
      (db.numbers.filter kindp).flatMap f := by
  obtain ⟨hkeys, hids, hlt, hnlt⟩ := hWF
  have hinj := List.inj_on_of_nodup_map hids
  cases hpr : parseRow cfg r with
  | none => rw [applyRow_skip hpr]
  | some rd =>
    cases hfind : findDraw db gtB rd.draw_number with
    | some d0 =>
      rw [applyRow_update hpr hfind]
      obtain ⟨hd0gt, -⟩ := findDraw_props hfind
      have hd0mem : d0 ∈ db.draws := findDraw_mem hfind
      have hf0 : ∀ n : NumberRow, n.drawId = d0.id → f n = [] := by
        intro n hn
        apply hf
        intro x hx hxid
        rw [hn] at hxid
        rw [hinj hx hd0mem hxid]
        exact hd0gt
      show (((db.numbers.filter (fun n => decide (n.drawId ≠ d0.id)) ++
        tagWrites d0.id rd.writes).filter kindp).flatMap f) = _
      rw [List.filter_append, List.flatMap_append, List.filter_comm]
      have htag : ((tagWrites d0.id rd.writes).filter kindp).flatMap f = [] := by
        apply flatMap_nil_of_forall
        intro n hn
        exact hf0 n (tagWrites_drawId (List.mem_of_mem_filter hn))
      rw [htag, List.append_nil]
      exact flatMap_filter_ne (fun n _ hn => hf0 n hn)
    | none =>
      rw [applyRow_insert hpr hfind]
      have hf0 : ∀ n : NumberRow, n.drawId = db.nextId → f n = [] := by
        intro n hn
        apply hf
        intro x hx hxid
        rw [hn] at hxid
        exact absurd hxid (Nat.ne_of_lt (hlt x hx))
      show (((db.numbers ++ tagWrites db.nextId rd.writes).filter kindp).flatMap f) = _
      rw [List.filter_append, List.flatMap_append]
      have htag : ((tagWrites db.nextId rd.writes).filter kindp).flatMap f = [] := by
        apply flatMap_nil_of_forall
        intro n hn
        exact hf0 n (tagWrites_drawId (List.mem_of_mem_filter hn))
      rw [htag, List.append_nil]

theorem applyRow_joined_iso (cfg : GameConfig) (gtA gtB : Str) (db : DBState)
    (r : CsvRow) (nt : NumKind) (ys ye : Option Int)
    (hWF : WF db) (hne : gtA ≠ gtB) :
    joinedNumbers (applyRow cfg gtB db r) gtA nt ys ye =
      joinedNumbers db gtA nt ys ye := by
  rw [joinedNumbers, joinedNumbers]
  have hstep1 : ((applyRow cfg gtB db r).numbers.filter
      (fun n => decide (n.kind = nt))).flatMap
      (fun n => ((applyRow cfg gtB db r).draws.filter (fun d =>
        decide (d.id = n.drawId) && decide (d.game_type = gtA) &&
        yearLowOk ys d.year && yearHighOk ye d.year)).map (fun _ => n.number)) =
      ((applyRow cfg gtB db r).numbers.filter
        (fun n => decide (n.kind = nt))).flatMap
      (fun n => (db.draws.filter (fun d =>
        decide (d.id = n.drawId) && decide (d.game_type = gtA) &&
        yearLowOk ys d.year && yearHighOk ye d.year)).map (fun _ => n.number)) := by
    apply congrArg
    funext n
    rw [applyRow_draws_filter cfg gtB db r hWF _ ?_]
    intro x hx
    simp [hx, Ne.symm hne]
  rw [hstep1]
  apply applyRow_flatMap_eq cfg gtB db r hWF
  intro n hall
  have hnil : db.draws.filter (fun d =>
      decide (d.id = n.drawId) && decide (d.game_type = gtA) &&
      yearLowOk ys d.year && yearHighOk ye d.year) = [] := by
    rw [List.filter_eq_nil_iff]
    intro x hx
    by_cases hid : x.id = n.drawId
    · have hxB := hall x hx hid
      simp [hxB, Ne.symm hne]
    · simp [hid]
  rw [hnil]
  rfl

theorem applyRow_comb_iso (cfg : GameConfig) (gtA gtB : Str) (db : DBState)
    (r : CsvRow) (nums : List Int) (ys ye : Option Int)
    (hWF : WF db) (hne : gtA ≠ gtB) :
    get_number_combination_frequency (applyRow cfg gtB db r) gtA nums ys ye =
      get_number_combination_frequency db gtA nums ys ye := by
  rw [get_number_combination_frequency, get_number_combination_frequency]
  have h1 : (applyRow cfg gtB db r).draws.filter (fun d =>
      decide (d.game_type = gtA) && comboInner (applyRow cfg gtB db r) nums d.id &&
      yearLowOk ys d.year && yearHighOk ye d.year) =
      db.draws.filter (fun d =>
      decide (d.game_type = gtA) && comboInner (applyRow cfg gtB db r) nums d.id &&
      yearLowOk ys d.year && yearHighOk ye d.year) := by
    apply applyRow_draws_filter cfg gtB db r hWF
    intro x hx
    simp [hx, Ne.symm hne]
  rw [h1]
  have h2 : db.draws.filter (fun d =>
      decide (d.game_type = gtA) && comboInner (applyRow cfg gtB db r) nums d.id &&
      yearLowOk ys d.year && yearHighOk ye d.year) =
      db.draws.filter (fun d =>
      decide (d.game_type = gtA) && comboInner db nums d.id &&
      yearLowOk ys d.year && yearHighOk ye d.year) := by
    apply List.filter_congr
    intro x hx
    by_cases hxgt : x.game_type = gtA
    · have hpres := applyRow_numbers_of_gt cfg gtB db r hWF x hx
        (by rw [hxgt]; exact hne)
      rw [comboInner_per_id hpres]
    · simp [hxgt]
  rw [h2]

theorem applyRow_hist_iso (cfg : GameConfig) (gtB : Str) (db : DBState)
    (r : CsvRow) (hWF : WF db) (hB : gtB ≠ bigLotto) :
    historyRows (applyRow cfg gtB db r) = historyRows db := by
  rw [historyRows, historyRows]
  have h1 : (applyRow cfg gtB db r).draws.filter (fun d =>
      decide (d.game_type = bigLotto) &&
      decide (drawMains (applyRow cfg gtB db r) d.id ≠ [])) =
      db.draws.filter (fun d =>
      decide (d.game_type = bigLotto) &&
      decide (drawMains (applyRow cfg gtB db r) d.id ≠ [])) := by
    apply applyRow_draws_filter cfg gtB db r hWF
    intro x hx
    simp [hx, hB]
  rw [h1]
  have h2 : db.draws.filter (fun d =>
      decide (d.game_type = bigLotto) &&
      decide (drawMains (applyRow cfg gtB db r) d.id ≠ [])) =
      db.draws.filter (fun d =>
      decide (d.game_type = bigLotto) && decide (drawMains db d.id ≠ [])) := by
    apply List.filter_congr
    intro x hx
    by_cases hxgt : x.game_type = bigLotto
    · have hpres := applyRow_numbers_of_gt cfg gtB db r hWF x hx
        (by rw [hxgt]; exact fun h => hB h.symm)
      rw [drawMains_per_id hpres]
    · simp [hxgt]
  rw [h2]
  apply List.map_congr_left
  intro x hx
  have hxmem := (mem_sortLe _ _ x).mp hx
  have hxf := List.mem_filter.mp hxmem
  have hxgt : x.game_type = bigLotto := by
    have := hxf.2
    simp only [Bool.and_eq_true, decide_eq_true_eq] at this
    exact this.1
  have hpres := applyRow_numbers_of_gt cfg gtB db r hWF x hxf.1
    (by rw [hxgt]; exact fun h => hB h.symm)
  rw [drawMains_per_id hpres]

theorem importFile_joined_iso (cfg : GameConfig) (gtA gtB : Str)
    (rows : List CsvRow) (nt : NumKind) (ys ye : Option Int) (hne : gtA ≠ gtB) :
    ∀ db : DBState, WF db →
    joinedNumbers (importFile cfg gtB db rows) gtA nt ys ye =
      joinedNumbers db gtA nt ys ye := by
  induction rows with
  | nil => intro db _; rfl
  | cons r tl ih =>
    intro db hWF
    show joinedNumbers (importFile cfg gtB (applyRow cfg gtB db r) tl) gtA nt ys ye = _
    rw [ih _ (applyRow_WF cfg gtB db r hWF)]
    exact applyRow_joined_iso cfg gtA gtB db r nt ys ye hWF hne

theorem importFile_comb_iso (cfg : GameConfig) (gtA gtB : Str)
    (rows : List CsvRow) (nums : List Int) (ys ye : Option Int) (hne : gtA ≠ gtB) :
    ∀ db : DBState, WF db →
    get_number_combination_frequency (importFile cfg gtB db rows) gtA nums ys ye =
      get_number_combination_frequency db gtA nums ys ye := by
  induction rows with
  | nil => intro db _; rfl
  | cons r tl ih =>
    intro db hWF
    show get_number_combination_frequency
      (importFile cfg gtB (applyRow cfg gtB db r) tl) gtA nums ys ye = _
    rw [ih _ (applyRow_WF cfg gtB db r hWF)]
    exact applyRow_comb_iso cfg gtA gtB db r nums ys ye hWF hne

theorem importFile_hist_iso (cfg : GameConfig) (gtB : Str)
    (rows : List CsvRow) (hB : gtB ≠ bigLotto) :
    ∀ db : DBState, WF db →
    historyRows (importFile cfg gtB db rows) = historyRows db := by
  induction rows with
  | nil => intro db _; rfl
  | cons r tl ih =>
    intro db hWF
    show historyRows (importFile cfg gtB (applyRow cfg gtB db r) tl) = _
    rw [ih _ (applyRow_WF cfg gtB db r hWF)]
    exact applyRow_hist_iso cfg gtB db r hWF hB

theorem freq_of_joined {db1 db2 : DBState} {gt : Str} {nt : NumKind}
    {ys ye : Option Int} (lim : Nat)
    (h : joinedNumbers db1 gt nt ys ye = joinedNumbers db2 gt nt ys ye) :
    get_number_frequency db1 gt nt ys ye lim =
      get_number_frequency db2 gt nt ys ye lim := by
  rw [get_number_frequency, get_number_frequency, freqPairs, freqPairs, h]

theorem history_check_of_rows {db1 db2 : DBState} (cand : List Int)
    (h : historyRows db1 = historyRows db2) :
    history_check db1 cand = history_check db2 cand := by
  rw [history_check, history_check, h]

/-- C9: variant isolation — importing any file of rows for variant B
changes neither the number-frequency results, nor the combination
frequency, nor the history matching of a different variant A (the
history check is hard-wired to 大樂透, so it is unaffected by any run
importing another variant), even when the imported numeric values
coincide with A's. -/
theorem variant_isolation (cfg : GameConfig) (gtA gtB : Str) (db : DBState)
    (rows : List CsvRow) (nt : NumKind) (ys ye : Option Int) (lim : Nat)
    (nums cand : List Int) (hWF : WF db) (hne : gtA ≠ gtB) :
    get_number_frequency (importFile cfg gtB db rows) gtA nt ys ye lim =
      get_number_frequency db gtA nt ys ye lim ∧
    get_number_combination_frequency (importFile cfg gtB db rows) gtA nums ys ye =
      get_number_combination_frequency db gtA nums ys ye ∧
    (gtB ≠ bigLotto →
      history_check (importFile cfg gtB db rows) cand = history_check db cand) := by
  refine ⟨?_, ?_, ?_⟩
  · exact freq_of_joined lim (importFile_joined_iso cfg gtA gtB rows nt ys ye hne db hWF)
  · exact importFile_comb_iso cfg gtA gtB rows nums ys ye hne db hWF
  · intro hB
    exact history_check_of_rows cand (importFile_hist_iso cfg gtB rows hB db hWF)

/-- Witness for C9: importing the 大樂透 draw's very numbers as a
今彩539 file leaves the 大樂透 frequency results untouched. -/
theorem variant_isolation_witness :
    WF db1 ∧ bigLotto ≠ small539 ∧
    get_number_frequency (importFile cfg539 small539 db1 [row1])
        bigLotto NumKind.main none none 10 =
      get_number_frequency db1 bigLotto NumKind.main none none 10 :=
  ⟨by decide, by decide,
    (variant_isolation cfg539 bigLotto small539 db1 [row1] NumKind.main
      none none 10 [] [] (by decide) (by decide)).1⟩

theorem recentLe_trans (a b c : Draw) :
    recentLe a b = true → recentLe b c = true → recentLe a c = true := by
  simp only [recentLe]
  by_cases hab : a.draw_date = b.draw_date <;>
    by_cases hbc : b.draw_date = c.draw_date
  · simp only [hab, hbc, if_true, hab.trans hbc]
    intro h1 h2
    exact strLe_trans _ _ _ h2 h1
  · simp only [hab, hbc, if_true, if_false, hab ▸ hbc, ite_false]
    intro _ h2
    exact h2
  · simp only [hab, hbc, if_true, if_false, hbc ▸ hab, ite_false]
    intro h1 _
    exact h1
  · simp only [hab, hbc, if_false]
    intro h1 h2
    by_cases hac : a.draw_date = c.draw_date
    · exfalso
      apply hab
      exact strLe_antisymm _ _ (hac ▸ h2) h1
    · simp only [hac, if_false]
      exact strLe_trans _ _ _ h2 h1

end Lottery
